import Mathlib

/-!
Shallow embedding of the game engine implemented in `game.c`
(territory-claiming game on a `width × height` grid).

Modelling conventions:
* `uint32` / `uint64` values are `Nat`s; every arithmetic operation that the C
  code performs on a machine integer goes through an explicit wrapping helper
  (`add32`, `sub32`, `add64`, `sub64`, `dec32`, `idx32`), so overflow and
  underflow behave exactly as in the C program.
* The board `pair_t **board` becomes a `List (List pair_t)` indexed as
  `board[x][y]`; reads out of range yield the all-zero cell and writes out of
  range are no-ops (the C code only ever touches in-range cells on defined
  executions; the one undefined access the program can make, `players[-1]`
  for `player = 0`, is modelled as a read of a default record / a dropped
  write, and no theorem's conclusion depends on the value chosen).
* The scratch buffer `g->neighbours` is recomputed by `find_neighbours`
  immediately before every use in `game_move`, so it is modelled as the pure
  function `find_neighbours` instead of a state component.
* The unbounded C recursion in `BFS` is given explicit fuel
  `width*height + 2`; each productive call permanently relabels one cell, so
  the recursion depth of the C program never exceeds this bound.
* `game_move` returns the pair (C return value, state after the call).
-/

set_option maxRecDepth 16384

def U32 : Nat := 4294967296
def U64 : Nat := 18446744073709551616

/-- Wrapping `uint32` addition. -/
def add32 (a b : Nat) : Nat := (a + b) % U32

/-- Wrapping `uint32` subtraction (`a - b` on machine words). -/
def sub32 (a b : Nat) : Nat := (a + (U32 - b % U32)) % U32

/-- Wrapping `uint64` addition. -/
def add64 (a b : Nat) : Nat := (a + b) % U64

/-- Wrapping `uint64` subtraction (`a - b` on machine words). -/
def sub64 (a b : Nat) : Nat := (a + (U64 - b % U64)) % U64

/-- The `uint32` value of `a - 1` (wraps at 0); used for neighbour coordinates. -/
def dec32 (a : Nat) : Nat := if a = 0 then U32 - 1 else a - 1

/-- The `uint32` value of `player - 1`, the index into the players array. -/
def idx32 (p : Nat) : Nat := if p = 0 then U32 - 1 else p - 1

/-- `struct pair`: one board square, owner (`player`, 0 = empty) and area tag. -/
structure pair_t where
  player : Nat
  parent_id : Nat
deriving DecidableEq

/-- `struct player`: per-player ledger. -/
structure player_t where
  boundary : Nat
  busy_areas : Nat
  completed_moves : Nat
deriving DecidableEq

/-- `struct game`: the whole engine state (see file header for conventions). -/
structure game_t where
  board : List (List pair_t)
  players : List player_t
  width : Nat
  height : Nat
  areas : Nat
  players_num : Nat
deriving DecidableEq

attribute [ext] pair_t player_t game_t

def emptyCell : pair_t := ⟨0, 0⟩

def zeroPlayer : player_t := ⟨0, 0, 0⟩

/-- Read `board[x][y]` (all-zero cell when out of range). -/
def cellAt (board : List (List pair_t)) (x y : Nat) : pair_t :=
  (board.getD x []).getD y emptyCell

def gameCell (g : game_t) (x y : Nat) : pair_t := cellAt g.board x y

/-- Write `board[x][y]` (no-op when out of range). -/
def setCell (board : List (List pair_t)) (x y : Nat) (c : pair_t) :
    List (List pair_t) :=
  board.set x ((board.getD x []).set y c)

def setOwner (g : game_t) (x y v : Nat) : game_t :=
  { g with board := setCell g.board x y { cellAt g.board x y with player := v } }

def setTag (g : game_t) (x y v : Nat) : game_t :=
  { g with board := setCell g.board x y { cellAt g.board x y with parent_id := v } }

/-- Read `players[i]`. -/
def playerAt (g : game_t) (i : Nat) : player_t := g.players.getD i zeroPlayer

/-- Update `players[i]` in place. -/
def modP (g : game_t) (i : Nat) (f : player_t → player_t) : game_t :=
  { g with players := g.players.set i (f (g.players.getD i zeroPlayer)) }

/-- `valid_coordinate`: `!(x >= width || y >= height)`. -/
def valid_coordinate (width height x y : Nat) : Bool :=
  decide (¬ (width ≤ x ∨ height ≤ y))

/-- `isSurrounded`: number of orthogonal neighbours of `(x,y)` owned by `player`. -/
def isSurrounded (board : List (List pair_t)) (width height player x y : Nat) :
    Nat :=
  (if 0 < x ∧ valid_coordinate width height (x - 1) y = true ∧
      (cellAt board (x - 1) y).player = player then 1 else 0) +
  (if x + 1 < width ∧ valid_coordinate width height (x + 1) y = true ∧
      (cellAt board (x + 1) y).player = player then 1 else 0) +
  (if 0 < y ∧ valid_coordinate width height x (y - 1) = true ∧
      (cellAt board x (y - 1)).player = player then 1 else 0) +
  (if y + 1 < height ∧ valid_coordinate width height x (y + 1) = true ∧
      (cellAt board x (y + 1)).player = player then 1 else 0)

/-- `common_free_fields`: cells two steps away (same axis) owned by `player`.
The C function takes `uint32` coordinates, so `x + 2` and `y + 2` wrap at
`2^32` (the `x - 2` / `y - 2` branches are guarded and cannot wrap). -/
def common_free_fields (board : List (List pair_t))
    (width height player x y : Nat) : Nat :=
  (if 1 < x ∧ valid_coordinate width height (x - 2) y = true ∧
      (cellAt board (x - 2) y).player = player then 1 else 0) +
  (if (x + 2) % U32 < width ∧
      valid_coordinate width height ((x + 2) % U32) y = true ∧
      (cellAt board ((x + 2) % U32) y).player = player then 1 else 0) +
  (if 1 < y ∧ valid_coordinate width height x (y - 2) = true ∧
      (cellAt board x (y - 2)).player = player then 1 else 0) +
  (if (y + 2) % U32 < height ∧
      valid_coordinate width height x ((y + 2) % U32) = true ∧
      (cellAt board x ((y + 2) % U32)).player = player then 1 else 0)

/-- `update_strangers_boundary`: decrement the boundary of the owner of `(x,y)`
when it is a different, non-empty player. -/
def update_strangers_boundary (g : game_t) (player x y : Nat) : game_t :=
  let stranger := (gameCell g x y).player
  if stranger = 0 then g
  else if valid_coordinate g.width g.height x y = true ∧ stranger ≠ player then
    modP g (stranger - 1) (fun r => { r with boundary := sub64 r.boundary 1 })
  else g

/-- `update_strangers`: apply `update_strangers_boundary` to the 4 neighbours. -/
def update_strangers (g : game_t) (player x y : Nat) : game_t :=
  let g1 := if 0 < x then update_strangers_boundary g player (x - 1) y else g
  let g2 := if x + 1 < g1.width then update_strangers_boundary g1 player (x + 1) y
            else g1
  let g3 := if 0 < y then update_strangers_boundary g2 player x (y - 1) else g2
  if y + 1 < g3.height then update_strangers_boundary g3 player x (y + 1) else g3

/-- `diagonal_neighbours`: diagonal double-exposure count at `(x,y)`. -/
def diagonal_neighbours (g : game_t) (player x y : Nat) : Nat :=
  (if 0 < x ∧ 0 < y ∧ (gameCell g (x - 1) (y - 1)).player = player then
    (if (gameCell g x (y - 1)).player = 0 then 1 else 0) +
    (if (gameCell g (x - 1) y).player = 0 then 1 else 0)
   else 0) +
  (if x + 1 < g.width ∧ y + 1 < g.height ∧
      (gameCell g (x + 1) (y + 1)).player = player then
    (if (gameCell g x (y + 1)).player = 0 then 1 else 0) +
    (if (gameCell g (x + 1) y).player = 0 then 1 else 0)
   else 0)

/-- One iteration of the pair comparison loop body of `different_areas`. -/
def pairStep (ni nj areas around : Nat) : Nat :=
  if areas < around ∧ ni ≠ 0 ∧ nj ≠ 0 ∧ ni ≠ nj then areas + 1 else areas

/-- `different_areas`: classify the neighbourhood (loops unrolled; the pair
order is `{0,1},{0,2},{0,3},{1,2},{1,3},{2,3}`). -/
def different_areas (nb : List Nat) (around : Nat) : Nat :=
  if around = 4 then around
  else
    let n0 := nb.getD 0 0
    let n1 := nb.getD 1 0
    let n2 := nb.getD 2 0
    let n3 := nb.getD 3 0
    let a := pairStep n0 n1 0 around
    let a := pairStep n0 n2 a around
    let a := pairStep n0 n3 a around
    let a := pairStep n1 n2 a around
    let a := pairStep n1 n3 a around
    let a := pairStep n2 n3 a around
    if a = 0 then 1 else a

/-- `BFS`: flood-fill relabel of `player`'s cells to `id` (fuelled; see header). -/
def BFS (fuel : Nat) (g : game_t) (id player x y : Nat) : game_t :=
  match fuel with
  | 0 => g
  | fuel + 1 =>
    if valid_coordinate g.width g.height x y = true then
      if (gameCell g x y).player = player ∧ (gameCell g x y).parent_id ≠ id then
        let g1 := setTag g x y id
        let g2 := BFS fuel g1 id player (dec32 x) y
        let g3 := BFS fuel g2 id player (x + 1) y
        let g4 := BFS fuel g3 id player x (dec32 y)
        BFS fuel g4 id player x (y + 1)
      else g
    else g

/-- `set_id`: the first non-zero neighbour tag (0 if none). -/
def set_id (nb : List Nat) : Nat :=
  if nb.getD 0 0 ≠ 0 then nb.getD 0 0
  else if nb.getD 1 0 ≠ 0 then nb.getD 1 0
  else if nb.getD 2 0 ≠ 0 then nb.getD 2 0
  else if nb.getD 3 0 ≠ 0 then nb.getD 3 0
  else 0

/-- `find_neighbours`: tags of the same-owner orthogonal neighbours, in slot
order left, right, down, up (0 when absent or differently owned). -/
def find_neighbours (g : game_t) (player x y : Nat) : List Nat :=
  [ if 0 < x ∧ (gameCell g (x - 1) y).player = player then
      (gameCell g (x - 1) y).parent_id else 0,
    if x + 1 < g.width ∧ (gameCell g (x + 1) y).player = player then
      (gameCell g (x + 1) y).parent_id else 0,
    if 0 < y ∧ (gameCell g x (y - 1)).player = player then
      (gameCell g x (y - 1)).parent_id else 0,
    if y + 1 < g.height ∧ (gameCell g x (y + 1)).player = player then
      (gameCell g x (y + 1)).parent_id else 0 ]

def bfsFuel (g : game_t) : Nat := g.width * g.height + 2

/-- The island branch of `game_move`: claim `(x,y)`, open a fresh area. -/
def new_island (g : game_t) (player x y : Nat) : game_t :=
  let g1 := setOwner g x y player
  let g2 := modP g1 (idx32 player)
    (fun r => { r with busy_areas := add32 r.busy_areas 1 })
  setTag g2 x y (playerAt g2 (idx32 player)).busy_areas

/-- The `different_areas = 1` branch: adopt the first non-zero neighbour tag
(the C loop breaks at the first hit; nothing happens when all slots are 0). -/
def adjust_to_existing (g : game_t) (nb : List Nat) (player x y : Nat) : game_t :=
  let claim := fun (g : game_t) (tag : Nat) =>
    let g1 := setOwner g x y player
    let g2 := setTag g1 x y tag
    modP g2 (idx32 player) (fun r => { r with boundary := sub64 r.boundary 1 })
  if nb.getD 0 0 ≠ 0 then claim g (nb.getD 0 0)
  else if nb.getD 1 0 ≠ 0 then claim g (nb.getD 1 0)
  else if nb.getD 2 0 ≠ 0 then claim g (nb.getD 2 0)
  else if nb.getD 3 0 ≠ 0 then claim g (nb.getD 3 0)
  else g

/-- The union branch of `game_move`: claim, retag, and flood-fill relabel. -/
def merge_areas (g : game_t) (nb : List Nat) (around player x y : Nat) : game_t :=
  let g1 := setOwner g x y player
  let g2 := setTag g1 x y (set_id nb)
  let g3 := modP g2 (idx32 player)
    (fun r => { r with busy_areas := sub32 r.busy_areas (different_areas nb around - 1) })
  let g4 := modP g3 (idx32 player)
    (fun r => { r with boundary := sub64 r.boundary 1 })
  let id := (gameCell g4 x y).parent_id
  let g5 := BFS (bfsFuel g4) g4 id player (dec32 x) y
  let g6 := BFS (bfsFuel g5) g5 id player (x + 1) y
  let g7 := BFS (bfsFuel g6) g6 id player x (dec32 y)
  BFS (bfsFuel g7) g7 id player x (y + 1)

/-- The `busy_areas -= around - 1` correction of the `different_areas = 1`
branch (line 337 of `game.c`). -/
def lower_busy (g : game_t) (player around : Nat) : game_t :=
  modP g (idx32 player)
    (fun r => { r with busy_areas := sub32 r.busy_areas (around - 1) })

/-- The common trailing block of `game_move` (lines 363-376 of `game.c`):
completed move count, the boundary corrections, strangers. -/
def update_info (g : game_t) (player x y : Nat) : game_t :=
  let gA := modP g (idx32 player)
    (fun r => { r with completed_moves := add64 r.completed_moves 1 })
  let gB := modP gA (idx32 player) (fun r =>
    { r with boundary :=
        add64 r.boundary (isSurrounded gA.board gA.width gA.height 0 x y) })
  let gC := modP gB (idx32 player) (fun r =>
    { r with boundary :=
        sub64 r.boundary (common_free_fields gB.board gB.width gB.height player x y) })
  let gD := modP gC (idx32 player)
    (fun r => { r with boundary := sub64 r.boundary (diagonal_neighbours gC player x y) })
  update_strangers gD player x y

/-- `game_move` (the island branch of the C code duplicates the trailing
update block verbatim before returning; here both paths share `update_info`). -/
def game_move (g : game_t) (player x y : Nat) : Bool × game_t :=
  if g.players_num < player then (false, g)
  else if valid_coordinate g.width g.height x y = false then (false, g)
  else if (gameCell g x y).player ≠ 0 then (false, g)
  else
    let around := isSurrounded g.board g.width g.height player x y
    if around = 0 then
      if (playerAt g (idx32 player)).busy_areas = g.areas then (false, g)
      else (true, update_info (new_island g player x y) player x y)
    else
      let nb := find_neighbours g player x y
      if different_areas nb around = 1 then
        let ga := if 1 < around then lower_busy g player around else g
        (true, update_info (adjust_to_existing ga nb player x y) player x y)
      else
        (true, update_info (merge_areas g nb around player x y) player x y)

/-- `game_new` (allocation failures are not modelled; `NULL` is `none`). -/
def game_new (width height players areas : Nat) : Option game_t :=
  if width = 0 ∨ height = 0 ∨ players = 0 ∨ areas = 0 then none
  else if 35 < players then none
  else some
    { board := List.replicate width (List.replicate height emptyCell),
      players := List.replicate players zeroPlayer,
      width := width,
      height := height,
      areas := areas,
      players_num := players }

/-- `game_busy_fields`. -/
def game_busy_fields (g : game_t) (player : Nat) : Nat :=
  if g.players_num < player then 0
  else (playerAt g (idx32 player)).completed_moves

/-- The `uint64` running sum `busy_fields_all` of `game_free_fields`. -/
def sum_completed (g : game_t) : Nat :=
  (List.range g.players_num).foldl
    (fun acc p => add64 acc (playerAt g p).completed_moves) 0

/-- `game_free_fields`. -/
def game_free_fields (g : game_t) (player : Nat) : Nat :=
  if g.players_num < player then 0
  else
    let player_tmp := playerAt g (idx32 player)
    if player_tmp.busy_areas = g.areas then player_tmp.boundary
    else
      let all_fields := (g.height * g.width) % U64
      sub64 all_fields (sum_completed g)

/-- Mathematical (non-wrapping) sum of `completed_moves` over all players. -/
def sum_completed_nat (g : game_t) : Nat :=
  (List.range g.players_num).foldl
    (fun acc p => acc + (playerAt g p).completed_moves) 0

/-- Number of empty (owner 0) cells of the board. -/
def empty_cells (g : game_t) : Nat :=
  (List.range g.width).foldl (fun acc x =>
    acc + (List.range g.height).foldl (fun acc2 y =>
      acc2 + (if (gameCell g x y).player = 0 then 1 else 0)) 0) 0

/-- Modelled from the spec wording of claim C3: 1 for a nonzero differing
pair, 0 otherwise. -/
def pairFlag (ni nj : Nat) : Nat :=
  if ni ≠ 0 ∧ nj ≠ 0 ∧ ni ≠ nj then 1 else 0

/-- Modelled from the spec wording of claim C3: count the differing nonzero
pairs over the order `{0,1},{0,2},{0,3},{1,2},{1,3},{2,3}` (each pair once),
cap the count at `around`, and force the result to 1 when no nonzero pair
differs. -/
def different_areas_spec (nb : List Nat) (around : Nat) : Nat :=
  let n0 := nb.getD 0 0
  let n1 := nb.getD 1 0
  let n2 := nb.getD 2 0
  let n3 := nb.getD 3 0
  let c := pairFlag n0 n1 + pairFlag n0 n2 + pairFlag n0 n3 +
           pairFlag n1 n2 + pairFlag n1 n3 + pairFlag n2 n3
  if c = 0 then 1 else min c around

/-- Boolean variant of `pairStep`, used to analyse `different_areas` by
exhausting the six pair-comparison outcomes. -/
def pairStepB (f : Bool) (areas around : Nat) : Nat :=
  if areas < around ∧ f = true then areas + 1 else areas

/-- 1 for a set flag, 0 otherwise. -/
def countB (f : Bool) : Nat := if f then 1 else 0

/-- The pair-comparison chain of `different_areas` over abstract flags. -/
def chainB (f1 f2 f3 f4 f5 f6 : Bool) (around : Nat) : Nat :=
  let a := pairStepB f1 0 around
  let a := pairStepB f2 a around
  let a := pairStepB f3 a around
  let a := pairStepB f4 a around
  let a := pairStepB f5 a around
  let a := pairStepB f6 a around
  if a = 0 then 1 else a

/-- The state returned by `game_new 2 2 1 1` (used by witnesses). -/
def demoFresh : game_t :=
  { board := List.replicate 2 (List.replicate 2 emptyCell),
    players := List.replicate 1 zeroPlayer,
    width := 2, height := 2, areas := 1, players_num := 1 }

/-- A 3×1 game where player 1 owns (0,0) and is at quota (used by witnesses). -/
def demoQuota : game_t :=
  { board := [[⟨1, 1⟩], [emptyCell], [emptyCell]],
    players := [⟨1, 1, 1⟩],
    width := 3, height := 1, areas := 1, players_num := 1 }

/-- A 3×1 two-player game where player 2 owns (2,0) (used by witnesses). -/
def demoTwo : game_t :=
  { board := [[emptyCell], [emptyCell], [⟨2, 1⟩]],
    players := [⟨0, 0, 0⟩, ⟨2, 1, 1⟩],
    width := 3, height := 1, areas := 2, players_num := 2 }

/-! Sanity checks against the sample driver `game_example.c`. -/

example : (game_new 10 10 2 3).isSome = true := by decide

example :
    ((game_new 10 10 2 3).map fun g0 =>
      let r1 := game_move g0 1 0 0
      let r2 := game_move r1.2 2 3 1
      (r1.1, r2.1, game_busy_fields r2.2 1, game_free_fields r2.2 1,
        game_free_fields r2.2 2)) =
    some (true, true, 1, 98, 98) := by decide

/-!
## Concrete executions

The claims C1, C2, C4 and C5 fail on the code: each of the following
theorems evaluates the embedded engine on a short, fully concrete move
sequence that a real caller could play.
-/

/-- C1: `game_move` does NOT reject the out-of-range player 0.  The guard
`players_num < player` never fires for `player = 0`, so on a fresh 2×2 board
the call `game_move(g, 0, 0, 0)` runs the extend branch (all neighbour tags
are 0) and returns `true` — in the C program it also writes `players[-1]`,
which is undefined behaviour.  The claim says every such call returns
`false` with no mutation. -/
theorem game_move_accepts_player_zero :
    ((game_new 2 2 1 1).map fun g0 => (game_move g0 0 0 0).1) = some true := by
  decide

/-- C2: placing at (1,0) between the two separate single-cell areas
(0,0) (tag 1) and (2,0) (tag 2) of player 1 is an accepted merging move:
`busy_areas` drops from 2 to 1, but because `different_areas` sees only one
differing pair it takes the `= 1` branch and never runs the `BFS` relabel,
so the merged region keeps the two distinct tags 1 and 2 — the claim's
"all sharing one area tag" fails. -/
theorem merge_two_areas_leaves_two_tags :
    ((game_new 3 1 1 2).map fun g0 =>
      let r1 := game_move g0 1 0 0
      let r2 := game_move r1.2 1 2 0
      let r3 := game_move r2.2 1 1 0
      (r1.1 && r2.1 && r3.1, (playerAt r3.2 0).busy_areas,
        (gameCell r3.2 0 0).parent_id, (gameCell r3.2 1 0).parent_id,
        (gameCell r3.2 2 0).parent_id)) =
    some (true, 1, 1, 1, 2) := by
  decide

/-- C5: on a 3×2 board with quota 2, the six accepted moves
(0,0),(2,0),(1,0),(2,1),(1,1),(0,1) of player 1 drive `busy_areas` to the
`uint32` wrap-around value 4294967295 (the `busy_areas -= around - 1`
correction is applied even when the two joined neighbour tags denote the
same connected region, so the counter underflows) — far above the quota 2.
All six moves are in-range, on empty cells, and accepted, so the final
state is reachable and violates `area_count[p] ≤ quota`. -/
theorem busy_areas_exceeds_quota :
    ((game_new 3 2 1 2).map fun g0 =>
      let r1 := game_move g0 1 0 0
      let r2 := game_move r1.2 1 2 0
      let r3 := game_move r2.2 1 1 0
      let r4 := game_move r3.2 1 2 1
      let r5 := game_move r4.2 1 1 1
      let r6 := game_move r5.2 1 0 1
      (r1.1 && r2.1 && r3.1 && r4.1 && r5.1 && r6.1,
        (playerAt r6.2 0).busy_areas, r6.2.areas)) =
    some (true, 4294967295, 2) := by
  decide

/-- C4: on a 5×2 board with quota 2, after the six moves of the C5 scenario
`busy_areas` is 4294967295, so the isolated seventh move (4,0) is accepted
and wraps `busy_areas` to 0 — giving the new cell the area tag 0.  The
eighth move (4,1) is then accepted with `around = 1` but all neighbour tag
slots 0, so the claim loop never fires: NO cell is claimed, yet
`completed_moves` is incremented.  Afterwards `Σ placed_count = 8` while
only 7 cells are owned (3 of 10 are empty): `8 + 3 = 11 ≠ 10 = width*height`.
All eight moves returned `true`, so the state is reachable. -/
theorem phantom_move_breaks_cell_count :
    ((game_new 5 2 1 2).map fun g0 =>
      let r1 := game_move g0 1 0 0
      let r2 := game_move r1.2 1 2 0
      let r3 := game_move r2.2 1 1 0
      let r4 := game_move r3.2 1 2 1
      let r5 := game_move r4.2 1 1 1
      let r6 := game_move r5.2 1 0 1
      let r7 := game_move r6.2 1 4 0
      let r8 := game_move r7.2 1 4 1
      (r1.1 && r2.1 && r3.1 && r4.1 && r5.1 && r6.1 && r7.1 && r8.1,
        sum_completed_nat r8.2, empty_cells r8.2,
        r8.2.width * r8.2.height, (gameCell r8.2 4 1).player)) =
    some (true, 8, 3, 10, 0) := by
  decide

/-- C3 counterexample: with all four neighbour slots carrying the same
nonzero tag and `around = 4`, the code returns `around` (= 4) through the
`around == 4` early exit, while the classification procedure stated in the
claim (no nonzero pair differs, so the result is forced to 1) yields 1. -/
theorem different_areas_four_equal_tags_cex :
    different_areas [1, 1, 1, 1] 4 = 4 ∧
    different_areas_spec [1, 1, 1, 1] 4 = 1 := by
  decide

/-- C6 counterexample: on a 2×2 board, after player 1 claims (0,0)
(boundary 2), the accepted extension move to (1,0) leaves boundary 2,
while the claim's "exactly these four corrections" account predicts
2 + 1 (empty neighbour (1,1)) - 0 - 0 = 3 (there are no strangers and no
two-step or diagonal matches): the extend branch also performs the
undocumented `boundary--` for the claimed cell itself. -/
theorem extend_branch_extra_boundary_cex :
    ((game_new 2 2 1 1).map fun g0 =>
      let r1 := game_move g0 1 0 0
      let r2 := game_move r1.2 1 1 0
      let g2 := r2.2
      (r1.1 && r2.1, (playerAt r1.2 0).boundary, (playerAt g2 0).boundary,
        sub64 (sub64 (add64 (playerAt r1.2 0).boundary
            (isSurrounded g2.board 2 2 0 1 0))
          (common_free_fields g2.board 2 2 1 1 0))
          (diagonal_neighbours g2 1 1 0))) =
    some (true, 2, 2, 3) := by
  decide

/-- C8 counterexample: on a 4×1 board with quota 1, player 1 owns (0,0)
(at quota) and player 2 owns (2,0).  The empty in-bounds cell (3,0) is
orthogonally adjacent to the owned cell (2,0), yet player 1's move there
returns `false`: only *same-owner* neighbours lift the quota restriction. -/
theorem quota_move_next_to_foreign_cell_fails :
    ((game_new 4 1 2 1).map fun g0 =>
      let r1 := game_move g0 1 0 0
      let r2 := game_move r1.2 2 2 0
      let g := r2.2
      (r1.1 && r2.1, (playerAt g 0).busy_areas == g.areas,
        (gameCell g 3 0).player == 0, (gameCell g 2 0).player,
        (game_move g 1 3 0).1)) =
    some (true, true, true, 2, false) := by
  decide

/-!
## Lemma kit: list indexing, projection preservation, wrap arithmetic
-/

theorem getD_oor {α : Type} (l : List α) (i : Nat) (d : α)
    (h : l.length ≤ i) : l.getD i d = d := by
  induction l generalizing i with
  | nil => simp [List.getD]
  | cons hd tl ih =>
    cases i with
    | zero => simp at h
    | succ n => simpa using ih n (by simpa using h)

theorem getD_set_same {α : Type} (l : List α) (i : Nat) (a d : α) :
    (l.set i a).getD i d = if i < l.length then a else d := by
  induction l generalizing i with
  | nil => simp [List.getD]
  | cons hd tl ih =>
    cases i with
    | zero => simp
    | succ n => simpa using ih n

theorem getD_set_ne {α : Type} (l : List α) (i j : Nat) (a d : α)
    (h : i ≠ j) : (l.set i a).getD j d = l.getD j d := by
  induction l generalizing i j with
  | nil => simp
  | cons hd tl ih =>
    cases i with
    | zero =>
      cases j with
      | zero => exact absurd rfl h
      | succ m => simp
    | succ n =>
      cases j with
      | zero => simp
      | succ m => simpa using ih n m (by omega)

theorem valid_coordinate_iff (w h a b : Nat) :
    valid_coordinate w h a b = true ↔ a < w ∧ b < h := by
  simp only [valid_coordinate, decide_eq_true_eq]
  omega

theorem idx32_pos (p : Nat) (hp : 1 ≤ p) : idx32 p = p - 1 := by
  unfold idx32
  rw [if_neg (by omega : ¬ p = 0)]

theorem sub64_sub64 (b m n : Nat) :
    sub64 (sub64 b m) n = sub64 b (m + n) := by
  simp only [sub64, U64] at *
  omega

theorem sub64_zero (b : Nat) (hb : b < U64) : sub64 b 0 = b := by
  simp only [sub64, U64] at *
  omega

@[simp] theorem modP_board (g : game_t) (i : Nat) (f : player_t → player_t) :
    (modP g i f).board = g.board := rfl

@[simp] theorem modP_width (g : game_t) (i : Nat) (f : player_t → player_t) :
    (modP g i f).width = g.width := rfl

@[simp] theorem modP_height (g : game_t) (i : Nat) (f : player_t → player_t) :
    (modP g i f).height = g.height := rfl

@[simp] theorem modP_areas (g : game_t) (i : Nat) (f : player_t → player_t) :
    (modP g i f).areas = g.areas := rfl

@[simp] theorem modP_players_num (g : game_t) (i : Nat) (f : player_t → player_t) :
    (modP g i f).players_num = g.players_num := rfl

@[simp] theorem modP_players_length (g : game_t) (i : Nat) (f : player_t → player_t) :
    (modP g i f).players.length = g.players.length := by
  simp [modP]

@[simp] theorem setOwner_players (g : game_t) (x y v : Nat) :
    (setOwner g x y v).players = g.players := rfl

@[simp] theorem setOwner_width (g : game_t) (x y v : Nat) :
    (setOwner g x y v).width = g.width := rfl

@[simp] theorem setOwner_height (g : game_t) (x y v : Nat) :
    (setOwner g x y v).height = g.height := rfl

@[simp] theorem setOwner_areas (g : game_t) (x y v : Nat) :
    (setOwner g x y v).areas = g.areas := rfl

@[simp] theorem setOwner_players_num (g : game_t) (x y v : Nat) :
    (setOwner g x y v).players_num = g.players_num := rfl

@[simp] theorem setTag_players (g : game_t) (x y v : Nat) :
    (setTag g x y v).players = g.players := rfl

@[simp] theorem setTag_width (g : game_t) (x y v : Nat) :
    (setTag g x y v).width = g.width := rfl

@[simp] theorem setTag_height (g : game_t) (x y v : Nat) :
    (setTag g x y v).height = g.height := rfl

@[simp] theorem setTag_areas (g : game_t) (x y v : Nat) :
    (setTag g x y v).areas = g.areas := rfl

@[simp] theorem setTag_players_num (g : game_t) (x y v : Nat) :
    (setTag g x y v).players_num = g.players_num := rfl

theorem playerAt_modP_self (g : game_t) (i : Nat) (f : player_t → player_t)
    (h : i < g.players.length) :
    playerAt (modP g i f) i = f (playerAt g i) := by
  simp [playerAt, modP, getD_set_same, h]

theorem playerAt_modP_ne (g : game_t) (i j : Nat) (f : player_t → player_t)
    (h : i ≠ j) : playerAt (modP g i f) j = playerAt g j :=
  getD_set_ne g.players i j (f (g.players.getD i zeroPlayer)) zeroPlayer h

/-!
## Lemma kit: board cell updates and `BFS`
-/

theorem cellAt_setCell (board : List (List pair_t)) (x y : Nat) (c : pair_t)
    (a b : Nat) :
    cellAt (setCell board x y c) a b =
      if x = a ∧ y = b ∧ x < board.length ∧ y < (board.getD x []).length then c
      else cellAt board a b := by
  unfold cellAt setCell
  by_cases hxa : x = a
  · subst hxa
    rw [getD_set_same]
    by_cases hx : x < board.length
    · rw [if_pos hx]
      by_cases hyb : y = b
      · subst hyb
        rw [getD_set_same]
        by_cases hy : y < (board.getD x []).length
        · rw [if_pos hy, if_pos ⟨rfl, rfl, hx, hy⟩]
        · rw [if_neg hy, if_neg (by tauto)]
          rw [getD_oor (board.getD x []) y emptyCell (by omega)]
      · rw [getD_set_ne _ _ _ _ _ hyb, if_neg (by tauto)]
    · rw [if_neg hx, if_neg (by tauto)]
      rw [getD_oor board x [] (by omega)]
  · rw [getD_set_ne _ _ _ _ _ hxa, if_neg (by tauto)]

theorem gameCell_setOwner_player_ne (g : game_t) (x y v a b : Nat)
    (h : ¬ (x = a ∧ y = b)) :
    gameCell (setOwner g x y v) a b = gameCell g a b := by
  unfold gameCell setOwner
  rw [cellAt_setCell]
  rw [if_neg (by tauto)]

theorem gameCell_setTag_ne (g : game_t) (x y v a b : Nat)
    (h : ¬ (x = a ∧ y = b)) :
    gameCell (setTag g x y v) a b = gameCell g a b := by
  unfold gameCell setTag
  rw [cellAt_setCell]
  rw [if_neg (by tauto)]

theorem gameCell_setTag_player (g : game_t) (x y v a b : Nat) :
    (gameCell (setTag g x y v) a b).player = (gameCell g a b).player := by
  unfold gameCell setTag
  rw [cellAt_setCell]
  split_ifs with h
  · obtain ⟨h1, h2, _⟩ := h
    subst h1
    subst h2
    rfl
  · rfl

theorem gameCell_setOwner_tag (g : game_t) (x y v a b : Nat) :
    (gameCell (setOwner g x y v) a b).parent_id = (gameCell g a b).parent_id := by
  unfold gameCell setOwner
  rw [cellAt_setCell]
  split_ifs with h
  · obtain ⟨h1, h2, _⟩ := h
    subst h1
    subst h2
    rfl
  · rfl

theorem BFS_players (fuel : Nat) (g : game_t) (id p x y : Nat) :
    (BFS fuel g id p x y).players = g.players := by
  induction fuel generalizing g x y with
  | zero => rfl
  | succ n ih =>
    simp only [BFS]
    split_ifs with h1 h2
    · rw [ih, ih, ih, ih, setTag_players]
    · rfl
    · rfl

theorem BFS_width (fuel : Nat) (g : game_t) (id p x y : Nat) :
    (BFS fuel g id p x y).width = g.width := by
  induction fuel generalizing g x y with
  | zero => rfl
  | succ n ih =>
    simp only [BFS]
    split_ifs with h1 h2
    · rw [ih, ih, ih, ih, setTag_width]
    · rfl
    · rfl

theorem BFS_height (fuel : Nat) (g : game_t) (id p x y : Nat) :
    (BFS fuel g id p x y).height = g.height := by
  induction fuel generalizing g x y with
  | zero => rfl
  | succ n ih =>
    simp only [BFS]
    split_ifs with h1 h2
    · rw [ih, ih, ih, ih, setTag_height]
    · rfl
    · rfl

theorem BFS_cell_player (fuel : Nat) (g : game_t) (id p x y a b : Nat) :
    (gameCell (BFS fuel g id p x y) a b).player = (gameCell g a b).player := by
  induction fuel generalizing g x y with
  | zero => rfl
  | succ n ih =>
    simp only [BFS]
    split_ifs with h1 h2
    · rw [ih, ih, ih, ih, gameCell_setTag_player]
    · rfl
    · rfl

theorem BFS_tag_changed_owner (fuel : Nat) (g : game_t) (id p x y a b : Nat)
    (hne : (gameCell (BFS fuel g id p x y) a b).parent_id ≠
      (gameCell g a b).parent_id) :
    (gameCell g a b).player = p := by
  induction fuel generalizing g x y with
  | zero => exact absurd rfl hne
  | succ n ih =>
    simp only [BFS] at hne
    split_ifs at hne with h1 h2
    · set G1 := setTag g x y id with hG1
      set G2 := BFS n G1 id p (dec32 x) y with hG2
      set G3 := BFS n G2 id p (x + 1) y with hG3
      set G4 := BFS n G3 id p x (dec32 y) with hG4
      have p1 : (gameCell G1 a b).player = (gameCell g a b).player :=
        gameCell_setTag_player g x y id a b
      have p2 : (gameCell G2 a b).player = (gameCell g a b).player := by
        rw [hG2, BFS_cell_player]
        exact p1
      have p3 : (gameCell G3 a b).player = (gameCell g a b).player := by
        rw [hG3, BFS_cell_player]
        exact p2
      have p4 : (gameCell G4 a b).player = (gameCell g a b).player := by
        rw [hG4, BFS_cell_player]
        exact p3
      by_cases e1 : (gameCell G1 a b).parent_id = (gameCell g a b).parent_id
      · by_cases e2 : (gameCell G2 a b).parent_id = (gameCell G1 a b).parent_id
        · by_cases e3 : (gameCell G3 a b).parent_id = (gameCell G2 a b).parent_id
          · by_cases e4 : (gameCell G4 a b).parent_id = (gameCell G3 a b).parent_id
            · rw [← e1, ← e2, ← e3, ← e4] at hne
              have h5 := ih G4 x (y + 1) hne
              rw [p4] at h5
              exact h5
            · have h5 := ih G3 x (dec32 y) e4
              rw [p3] at h5
              exact h5
          · have h5 := ih G2 (x + 1) y e3
            rw [p2] at h5
            exact h5
        · have h5 := ih G1 (dec32 x) y e2
          rw [p1] at h5
          exact h5
      · -- the tag of (a,b) was changed by the initial setTag: (a,b) = (x,y)
        rw [hG1] at e1
        unfold gameCell setTag at e1
        rw [cellAt_setCell] at e1
        by_cases hin : x = a ∧ y = b ∧ x < g.board.length ∧
            y < (g.board.getD x []).length
        · obtain ⟨ha, hb2, _⟩ := hin
          subst ha
          subst hb2
          exact h2.1
        · rw [if_neg hin] at e1
          exact absurd rfl e1
    · exact absurd rfl hne
    · exact absurd rfl hne

/-!
## Lemma kit: `update_strangers`
-/

@[simp] theorem usb_board (g : game_t) (player x y : Nat) :
    (update_strangers_boundary g player x y).board = g.board := by
  simp only [update_strangers_boundary]
  split_ifs <;> rfl

@[simp] theorem usb_width (g : game_t) (player x y : Nat) :
    (update_strangers_boundary g player x y).width = g.width := by
  simp only [update_strangers_boundary]
  split_ifs <;> rfl

@[simp] theorem usb_height (g : game_t) (player x y : Nat) :
    (update_strangers_boundary g player x y).height = g.height := by
  simp only [update_strangers_boundary]
  split_ifs <;> rfl

@[simp] theorem usb_players_length (g : game_t) (player x y : Nat) :
    (update_strangers_boundary g player x y).players.length = g.players.length := by
  simp only [update_strangers_boundary]
  split_ifs <;> simp [modP]

@[simp] theorem us_board (g : game_t) (player x y : Nat) :
    (update_strangers g player x y).board = g.board := by
  simp only [update_strangers]
  split_ifs <;> simp

@[simp] theorem us_width (g : game_t) (player x y : Nat) :
    (update_strangers g player x y).width = g.width := by
  simp only [update_strangers]
  split_ifs <;> simp

@[simp] theorem us_height (g : game_t) (player x y : Nat) :
    (update_strangers g player x y).height = g.height := by
  simp only [update_strangers]
  split_ifs <;> simp

@[simp] theorem us_players_length (g : game_t) (player x y : Nat) :
    (update_strangers g player x y).players.length = g.players.length := by
  simp only [update_strangers]
  split_ifs <;> simp

theorem playerAt_usb (g : game_t) (player x y i : Nat) :
    playerAt (update_strangers_boundary g player x y) i =
      if (gameCell g x y).player ≠ 0 ∧
         valid_coordinate g.width g.height x y = true ∧
         (gameCell g x y).player ≠ player ∧
         (gameCell g x y).player - 1 = i ∧ i < g.players.length then
        { playerAt g i with boundary := sub64 (playerAt g i).boundary 1 }
      else playerAt g i := by
  simp only [update_strangers_boundary]
  by_cases h0 : (gameCell g x y).player = 0
  · rw [if_pos h0, if_neg (by tauto)]
  · rw [if_neg h0]
    by_cases hvp : valid_coordinate g.width g.height x y = true ∧
        (gameCell g x y).player ≠ player
    · rw [if_pos hvp]
      by_cases hidx : (gameCell g x y).player - 1 = i
      · by_cases hlen : i < g.players.length
        · rw [if_pos ⟨h0, hvp.1, hvp.2, hidx, hlen⟩, hidx]
          exact playerAt_modP_self g i _ hlen
        · rw [if_neg (by tauto), hidx]
          unfold playerAt modP
          rw [getD_set_same, if_neg hlen, getD_oor _ _ _ (by omega)]
      · rw [if_neg (by tauto)]
        exact playerAt_modP_ne g _ i _ hidx
    · rw [if_neg hvp, if_neg (by tauto)]

theorem usb_busy (g : game_t) (player x y i : Nat) :
    (playerAt (update_strangers_boundary g player x y) i).busy_areas =
      (playerAt g i).busy_areas := by
  rw [playerAt_usb]
  split_ifs <;> rfl

theorem usb_completed (g : game_t) (player x y i : Nat) :
    (playerAt (update_strangers_boundary g player x y) i).completed_moves =
      (playerAt g i).completed_moves := by
  rw [playerAt_usb]
  split_ifs <;> rfl

theorem us_busy (g : game_t) (player x y i : Nat) :
    (playerAt (update_strangers g player x y) i).busy_areas =
      (playerAt g i).busy_areas := by
  simp only [update_strangers]
  split_ifs <;> simp only [usb_busy]

theorem us_completed (g : game_t) (player x y i : Nat) :
    (playerAt (update_strangers g player x y) i).completed_moves =
      (playerAt g i).completed_moves := by
  simp only [update_strangers]
  split_ifs <;> simp only [usb_completed]

theorem playerAt_update_strangers_self (g : game_t) (player x y : Nat)
    (hp : 1 ≤ player) :
    playerAt (update_strangers g player x y) (player - 1) =
      playerAt g (player - 1) := by
  have step : ∀ (h : game_t) (a b : Nat),
      playerAt (update_strangers_boundary h player a b) (player - 1) =
        playerAt h (player - 1) := by
    intro h a b
    rw [playerAt_usb, if_neg]
    rintro ⟨h0, -, hne, hidx, -⟩
    exact hne (by omega)
  simp only [update_strangers]
  split_ifs <;> simp only [step]

theorem usb_boundary_at (h : game_t) (player a b q : Nat)
    (hq1 : 1 ≤ q) (hqp : q ≠ player) (hqlen : q - 1 < h.players.length) :
    (playerAt (update_strangers_boundary h player a b) (q - 1)).boundary =
      if (gameCell h a b).player = q ∧ a < h.width ∧ b < h.height then
        sub64 (playerAt h (q - 1)).boundary 1
      else (playerAt h (q - 1)).boundary := by
  rw [playerAt_usb]
  by_cases hc : (gameCell h a b).player = q ∧ a < h.width ∧ b < h.height
  · obtain ⟨ho, ha, hb⟩ := hc
    rw [if_pos ⟨by omega, (valid_coordinate_iff _ _ _ _).2 ⟨ha, hb⟩,
      by rw [ho]; exact hqp, by omega, hqlen⟩, if_pos ⟨ho, ha, hb⟩]
  · rw [if_neg hc, if_neg]
    rintro ⟨h0, hv, hnp, hidx, -⟩
    apply hc
    have hv2 := (valid_coordinate_iff _ _ _ _).1 hv
    exact ⟨by omega, hv2.1, hv2.2⟩

theorem isSurrounded_eval (board : List (List pair_t)) (w h pl x y : Nat)
    (hx : x < w) (hy : y < h) :
    isSurrounded board w h pl x y =
      (if 0 < x ∧ (cellAt board (x - 1) y).player = pl then 1 else 0) +
      (if x + 1 < w ∧ (cellAt board (x + 1) y).player = pl then 1 else 0) +
      (if 0 < y ∧ (cellAt board x (y - 1)).player = pl then 1 else 0) +
      (if y + 1 < h ∧ (cellAt board x (y + 1)).player = pl then 1 else 0) := by
  unfold isSurrounded
  have e1 : (if 0 < x ∧ valid_coordinate w h (x - 1) y = true ∧
        (cellAt board (x - 1) y).player = pl then 1 else 0 : Nat) =
      if 0 < x ∧ (cellAt board (x - 1) y).player = pl then 1 else 0 := by
    refine if_congr ?_ rfl rfl
    rw [valid_coordinate_iff]
    omega
  have e2 : (if x + 1 < w ∧ valid_coordinate w h (x + 1) y = true ∧
        (cellAt board (x + 1) y).player = pl then 1 else 0 : Nat) =
      if x + 1 < w ∧ (cellAt board (x + 1) y).player = pl then 1 else 0 := by
    refine if_congr ?_ rfl rfl
    rw [valid_coordinate_iff]
    omega
  have e3 : (if 0 < y ∧ valid_coordinate w h x (y - 1) = true ∧
        (cellAt board x (y - 1)).player = pl then 1 else 0 : Nat) =
      if 0 < y ∧ (cellAt board x (y - 1)).player = pl then 1 else 0 := by
    refine if_congr ?_ rfl rfl
    rw [valid_coordinate_iff]
    omega
  have e4 : (if y + 1 < h ∧ valid_coordinate w h x (y + 1) = true ∧
        (cellAt board x (y + 1)).player = pl then 1 else 0 : Nat) =
      if y + 1 < h ∧ (cellAt board x (y + 1)).player = pl then 1 else 0 := by
    refine if_congr ?_ rfl rfl
    rw [valid_coordinate_iff]
    omega
  rw [e1, e2, e3, e4]

theorem playerAt_update_strangers_boundary_q (g : game_t) (player x y q : Nat)
    (hq1 : 1 ≤ q) (hqp : q ≠ player) (hqlen : q - 1 < g.players.length)
    (hx : x < g.width) (hy : y < g.height)
    (hqb : (playerAt g (q - 1)).boundary < U64) :
    (playerAt (update_strangers g player x y) (q - 1)).boundary =
      sub64 (playerAt g (q - 1)).boundary
        (isSurrounded g.board g.width g.height q x y) := by
  simp only [update_strangers]
  set t1 := (if 0 < x then update_strangers_boundary g player (x - 1) y else g)
    with ht1
  have w1 : t1.width = g.width := by rw [ht1]; split_ifs <;> simp
  have hh1 : t1.height = g.height := by rw [ht1]; split_ifs <;> simp
  have b1 : t1.board = g.board := by rw [ht1]; split_ifs <;> simp
  have l1 : t1.players.length = g.players.length := by rw [ht1]; split_ifs <;> simp
  set t2 := (if x + 1 < t1.width then update_strangers_boundary t1 player (x + 1) y
    else t1) with ht2
  have w2 : t2.width = g.width := by rw [ht2]; split_ifs <;> simp [w1]
  have hh2 : t2.height = g.height := by rw [ht2]; split_ifs <;> simp [hh1]
  have b2 : t2.board = g.board := by rw [ht2]; split_ifs <;> simp [b1]
  have l2 : t2.players.length = g.players.length := by
    rw [ht2]; split_ifs <;> simp [l1]
  set t3 := (if 0 < y then update_strangers_boundary t2 player x (y - 1) else t2)
    with ht3
  have w3 : t3.width = g.width := by rw [ht3]; split_ifs <;> simp [w2]
  have hh3 : t3.height = g.height := by rw [ht3]; split_ifs <;> simp [hh2]
  have b3 : t3.board = g.board := by rw [ht3]; split_ifs <;> simp [b2]
  have l3 : t3.players.length = g.players.length := by
    rw [ht3]; split_ifs <;> simp [l2]
  have bnd1 : (playerAt t1 (q - 1)).boundary =
      if 0 < x ∧ (cellAt g.board (x - 1) y).player = q then
        sub64 (playerAt g (q - 1)).boundary 1
      else (playerAt g (q - 1)).boundary := by
    rw [ht1]
    by_cases h0 : 0 < x
    · rw [if_pos h0, usb_boundary_at g player (x - 1) y q hq1 hqp hqlen]
      simp only [gameCell]
      refine if_congr ?_ rfl rfl
      omega
    · rw [if_neg h0, if_neg (by omega)]
  have bnd2 : (playerAt t2 (q - 1)).boundary =
      if x + 1 < g.width ∧ (cellAt g.board (x + 1) y).player = q then
        sub64 (playerAt t1 (q - 1)).boundary 1
      else (playerAt t1 (q - 1)).boundary := by
    rw [ht2, w1]
    by_cases hxx : x + 1 < g.width
    · rw [if_pos hxx,
        usb_boundary_at t1 player (x + 1) y q hq1 hqp (by rw [l1]; exact hqlen)]
      simp only [gameCell, b1, w1, hh1]
      refine if_congr ?_ rfl rfl
      omega
    · rw [if_neg hxx, if_neg (by omega)]
  have bnd3 : (playerAt t3 (q - 1)).boundary =
      if 0 < y ∧ (cellAt g.board x (y - 1)).player = q then
        sub64 (playerAt t2 (q - 1)).boundary 1
      else (playerAt t2 (q - 1)).boundary := by
    rw [ht3]
    by_cases hy0 : 0 < y
    · rw [if_pos hy0,
        usb_boundary_at t2 player x (y - 1) q hq1 hqp (by rw [l2]; exact hqlen)]
      simp only [gameCell, b2, w2, hh2]
      refine if_congr ?_ rfl rfl
      omega
    · rw [if_neg hy0, if_neg (by omega)]
  rw [hh3]
  have bnd4 : (playerAt
      (if y + 1 < g.height then update_strangers_boundary t3 player x (y + 1)
       else t3) (q - 1)).boundary =
      if y + 1 < g.height ∧ (cellAt g.board x (y + 1)).player = q then
        sub64 (playerAt t3 (q - 1)).boundary 1
      else (playerAt t3 (q - 1)).boundary := by
    by_cases hyy : y + 1 < g.height
    · rw [if_pos hyy,
        usb_boundary_at t3 player x (y + 1) q hq1 hqp (by rw [l3]; exact hqlen)]
      simp only [gameCell, b3, w3, hh3]
      refine if_congr ?_ rfl rfl
      omega
    · rw [if_neg hyy, if_neg (by omega)]
  rw [bnd4, bnd3, bnd2, bnd1, isSurrounded_eval g.board g.width g.height q x y hx hy]
  simp only [sub64, U64] at hqb ⊢
  split_ifs <;> omega

/-!
## Lemma kit: the move branches and `update_info`
-/

theorem playerAt_setOwner (g : game_t) (x y v i : Nat) :
    playerAt (setOwner g x y v) i = playerAt g i := rfl

theorem playerAt_setTag (g : game_t) (x y v i : Nat) :
    playerAt (setTag g x y v) i = playerAt g i := rfl

theorem playerAt_BFS (fuel : Nat) (g : game_t) (id p x y i : Nat) :
    playerAt (BFS fuel g id p x y) i = playerAt g i := by
  unfold playerAt
  rw [BFS_players]

theorem diagonal_neighbours_congr (g1 g2 : game_t) (player x y : Nat)
    (hb : g1.board = g2.board) (hw : g1.width = g2.width)
    (hh : g1.height = g2.height) :
    diagonal_neighbours g1 player x y = diagonal_neighbours g2 player x y := by
  unfold diagonal_neighbours gameCell
  rw [hb, hw, hh]

@[simp] theorem new_island_width (g : game_t) (player x y : Nat) :
    (new_island g player x y).width = g.width := by
  simp only [new_island, setTag_width, modP_width, setOwner_width]

@[simp] theorem new_island_height (g : game_t) (player x y : Nat) :
    (new_island g player x y).height = g.height := by
  simp only [new_island, setTag_height, modP_height, setOwner_height]

@[simp] theorem new_island_players_length (g : game_t) (player x y : Nat) :
    (new_island g player x y).players.length = g.players.length := by
  simp only [new_island, setTag_players, modP_players_length, setOwner_players]

@[simp] theorem adjust_width (g : game_t) (nb : List Nat) (player x y : Nat) :
    (adjust_to_existing g nb player x y).width = g.width := by
  simp only [adjust_to_existing]
  split_ifs <;> simp

@[simp] theorem adjust_height (g : game_t) (nb : List Nat) (player x y : Nat) :
    (adjust_to_existing g nb player x y).height = g.height := by
  simp only [adjust_to_existing]
  split_ifs <;> simp

@[simp] theorem adjust_players_length (g : game_t) (nb : List Nat)
    (player x y : Nat) :
    (adjust_to_existing g nb player x y).players.length = g.players.length := by
  simp only [adjust_to_existing]
  split_ifs <;> simp [modP]

@[simp] theorem merge_width (g : game_t) (nb : List Nat) (around player x y : Nat) :
    (merge_areas g nb around player x y).width = g.width := by
  simp only [merge_areas, BFS_width, modP_width, setTag_width, setOwner_width]

@[simp] theorem merge_height (g : game_t) (nb : List Nat) (around player x y : Nat) :
    (merge_areas g nb around player x y).height = g.height := by
  simp only [merge_areas, BFS_height, modP_height, setTag_height, setOwner_height]

@[simp] theorem merge_players_length (g : game_t) (nb : List Nat)
    (around player x y : Nat) :
    (merge_areas g nb around player x y).players.length = g.players.length := by
  simp only [merge_areas, BFS_players, modP_players_length, setTag_players,
    setOwner_players]

@[simp] theorem update_info_board (g : game_t) (player x y : Nat) :
    (update_info g player x y).board = g.board := by
  simp only [update_info, us_board, modP_board]

@[simp] theorem update_info_width (g : game_t) (player x y : Nat) :
    (update_info g player x y).width = g.width := by
  simp only [update_info, us_width, modP_width]

@[simp] theorem update_info_height (g : game_t) (player x y : Nat) :
    (update_info g player x y).height = g.height := by
  simp only [update_info, us_height, modP_height]

@[simp] theorem update_info_players_length (g : game_t) (player x y : Nat) :
    (update_info g player x y).players.length = g.players.length := by
  simp only [update_info, us_players_length, modP_players_length]

theorem playerAt_new_island_self (g : game_t) (player x y : Nat)
    (hp : 1 ≤ player) (hlen : player - 1 < g.players.length) :
    playerAt (new_island g player x y) (player - 1) =
      { playerAt g (player - 1) with
        busy_areas := add32 (playerAt g (player - 1)).busy_areas 1 } := by
  simp only [new_island, idx32_pos player hp, playerAt_setTag]
  rw [playerAt_modP_self _ _ _ (by simpa using hlen)]
  simp only [playerAt_setOwner]

theorem playerAt_new_island_other (g : game_t) (player x y i : Nat)
    (hi : i ≠ idx32 player) :
    playerAt (new_island g player x y) i = playerAt g i := by
  simp only [new_island, playerAt_setTag]
  rw [playerAt_modP_ne _ _ _ _ (fun e => hi e.symm)]
  rfl

theorem playerAt_adjust_self (g : game_t) (nb : List Nat) (player x y : Nat)
    (hp : 1 ≤ player) (hlen : player - 1 < g.players.length)
    (hnz : set_id nb ≠ 0) :
    playerAt (adjust_to_existing g nb player x y) (player - 1) =
      { playerAt g (player - 1) with
        boundary := sub64 (playerAt g (player - 1)).boundary 1 } := by
  simp only [set_id] at hnz
  simp only [adjust_to_existing, idx32_pos player hp, playerAt_setTag]
  split_ifs at hnz ⊢ <;>
    first
      | exact absurd rfl hnz
      | (rw [playerAt_modP_self _ _ _ (by simpa using hlen)]
         simp only [playerAt_setTag, playerAt_setOwner])

theorem playerAt_adjust_other (g : game_t) (nb : List Nat) (player x y i : Nat)
    (hi : i ≠ idx32 player) :
    playerAt (adjust_to_existing g nb player x y) i = playerAt g i := by
  simp only [adjust_to_existing]
  split_ifs <;>
    first
      | rfl
      | (rw [playerAt_modP_ne _ _ _ _ (fun e => hi e.symm)]
         rfl)

theorem adjust_noop (g : game_t) (nb : List Nat) (player x y : Nat)
    (hz : set_id nb = 0) : adjust_to_existing g nb player x y = g := by
  simp only [set_id] at hz
  simp only [adjust_to_existing]
  split_ifs at hz ⊢ <;> first | rfl | exact absurd hz (by assumption)

theorem playerAt_merge_self (g : game_t) (nb : List Nat) (around player x y : Nat)
    (hp : 1 ≤ player) (hlen : player - 1 < g.players.length) :
    playerAt (merge_areas g nb around player x y) (player - 1) =
      { playerAt g (player - 1) with
        busy_areas := sub32 (playerAt g (player - 1)).busy_areas
          (different_areas nb around - 1),
        boundary := sub64 (playerAt g (player - 1)).boundary 1 } := by
  simp only [merge_areas, idx32_pos player hp, playerAt_BFS, playerAt_setTag]
  rw [playerAt_modP_self _ _ _ (by simpa using hlen)]
  rw [playerAt_modP_self _ _ _ (by simpa using hlen)]
  simp only [playerAt_setTag, playerAt_setOwner]

theorem playerAt_merge_other (g : game_t) (nb : List Nat) (around player x y i : Nat)
    (hi : i ≠ idx32 player) :
    playerAt (merge_areas g nb around player x y) i = playerAt g i := by
  simp only [merge_areas, playerAt_BFS]
  rw [playerAt_modP_ne _ _ _ _ (fun e => hi e.symm)]
  rw [playerAt_modP_ne _ _ _ _ (fun e => hi e.symm)]
  rfl

@[simp] theorem diagonal_neighbours_modP (h : game_t) (i : Nat)
    (f : player_t → player_t) (player x y : Nat) :
    diagonal_neighbours (modP h i f) player x y =
      diagonal_neighbours h player x y :=
  diagonal_neighbours_congr _ _ _ _ _ rfl rfl rfl

theorem playerAt_update_info_self (g : game_t) (player x y : Nat)
    (hp : 1 ≤ player) (hlen : player - 1 < g.players.length) :
    playerAt (update_info g player x y) (player - 1) =
      { playerAt g (player - 1) with
        completed_moves := add64 (playerAt g (player - 1)).completed_moves 1,
        boundary := sub64 (sub64 (add64 (playerAt g (player - 1)).boundary
            (isSurrounded g.board g.width g.height 0 x y))
          (common_free_fields g.board g.width g.height player x y))
          (diagonal_neighbours g player x y) } := by
  simp only [update_info, idx32_pos player hp]
  rw [playerAt_update_strangers_self _ _ _ _ hp]
  rw [playerAt_modP_self _ _ _ (by simpa using hlen)]
  rw [playerAt_modP_self _ _ _ (by simpa using hlen)]
  rw [playerAt_modP_self _ _ _ (by simpa using hlen)]
  rw [playerAt_modP_self _ _ _ hlen]
  simp only [modP_board, modP_width, modP_height, diagonal_neighbours_modP]

theorem playerAt_us_other_over (gD g : game_t) (player x y q : Nat)
    (hq1 : 1 ≤ q) (hqp : q ≠ player)
    (hb : gD.board = g.board) (hw : gD.width = g.width)
    (hh : gD.height = g.height) (hl : gD.players.length = g.players.length)
    (hpq : playerAt gD (q - 1) = playerAt g (q - 1))
    (hqlen : q - 1 < g.players.length) (hx : x < g.width) (hy : y < g.height)
    (hqb : (playerAt g (q - 1)).boundary < U64) :
    playerAt (update_strangers gD player x y) (q - 1) =
      { playerAt g (q - 1) with
        boundary := sub64 (playerAt g (q - 1)).boundary
          (isSurrounded g.board g.width g.height q x y) } := by
  have hbnd := playerAt_update_strangers_boundary_q gD player x y q hq1 hqp
    (by rw [hl]; exact hqlen) (by rw [hw]; exact hx) (by rw [hh]; exact hy)
    (by rw [hpq]; exact hqb)
  have hbusy := us_busy gD player x y (q - 1)
  have hcomp := us_completed gD player x y (q - 1)
  rw [hpq] at hbnd hbusy hcomp
  rw [hb, hw, hh] at hbnd
  apply player_t.ext
  · exact hbnd
  · exact hbusy
  · exact hcomp

theorem playerAt_update_info_other (g : game_t) (player x y q : Nat)
    (hp : 1 ≤ player) (hq1 : 1 ≤ q) (hqp : q ≠ player)
    (hqlen : q - 1 < g.players.length) (hx : x < g.width) (hy : y < g.height)
    (hqb : (playerAt g (q - 1)).boundary < U64) :
    playerAt (update_info g player x y) (q - 1) =
      { playerAt g (q - 1) with
        boundary := sub64 (playerAt g (q - 1)).boundary
          (isSurrounded g.board g.width g.height q x y) } := by
  have hne : player - 1 ≠ q - 1 := by omega
  simp only [update_info, idx32_pos player hp]
  apply playerAt_us_other_over _ g player x y q hq1 hqp (by simp) (by simp)
    (by simp) (by simp) ?_ hqlen hx hy hqb
  rw [playerAt_modP_ne _ _ _ _ hne, playerAt_modP_ne _ _ _ _ hne,
    playerAt_modP_ne _ _ _ _ hne, playerAt_modP_ne _ _ _ _ hne]

/-!
## Lemma kit: case analysis of `game_move`
-/

theorem game_move_island_eq (g : game_t) (player x y : Nat)
    (h1 : ¬ g.players_num < player)
    (h2 : valid_coordinate g.width g.height x y = true)
    (h3 : (gameCell g x y).player = 0)
    (h4 : isSurrounded g.board g.width g.height player x y = 0)
    (h5 : (playerAt g (idx32 player)).busy_areas ≠ g.areas) :
    game_move g player x y =
      (true, update_info (new_island g player x y) player x y) := by
  simp only [game_move]
  rw [if_neg h1, if_neg (by simp [h2]), if_neg (by simp [h3]), if_pos h4,
    if_neg h5]

theorem game_move_extend_eq (g : game_t) (player x y : Nat)
    (h1 : ¬ g.players_num < player)
    (h2 : valid_coordinate g.width g.height x y = true)
    (h3 : (gameCell g x y).player = 0)
    (h4 : isSurrounded g.board g.width g.height player x y ≠ 0)
    (h5 : different_areas (find_neighbours g player x y)
      (isSurrounded g.board g.width g.height player x y) = 1) :
    game_move g player x y =
      (true, update_info (adjust_to_existing
        (if 1 < isSurrounded g.board g.width g.height player x y then
          lower_busy g player (isSurrounded g.board g.width g.height player x y)
         else g)
        (find_neighbours g player x y) player x y) player x y) := by
  simp only [game_move]
  rw [if_neg h1, if_neg (by simp [h2]), if_neg (by simp [h3]), if_neg h4,
    if_pos h5]

theorem game_move_merge_eq (g : game_t) (player x y : Nat)
    (h1 : ¬ g.players_num < player)
    (h2 : valid_coordinate g.width g.height x y = true)
    (h3 : (gameCell g x y).player = 0)
    (h4 : isSurrounded g.board g.width g.height player x y ≠ 0)
    (h5 : different_areas (find_neighbours g player x y)
      (isSurrounded g.board g.width g.height player x y) ≠ 1) :
    game_move g player x y =
      (true, update_info (merge_areas g (find_neighbours g player x y)
        (isSurrounded g.board g.width g.height player x y) player x y)
        player x y) := by
  simp only [game_move]
  rw [if_neg h1, if_neg (by simp [h2]), if_neg (by simp [h3]), if_neg h4,
    if_neg h5]

theorem game_move_fail_player (g : game_t) (player x y : Nat)
    (h : g.players_num < player) : game_move g player x y = (false, g) := by
  simp [game_move, h]

theorem game_move_fail_coord (g : game_t) (player x y : Nat)
    (h : valid_coordinate g.width g.height x y = false) :
    game_move g player x y = (false, g) := by
  simp [game_move, h]

theorem game_move_fail_occupied (g : game_t) (player x y : Nat)
    (h : (gameCell g x y).player ≠ 0) : game_move g player x y = (false, g) := by
  simp [game_move, h]

theorem game_move_fail_quota (g : game_t) (player x y : Nat)
    (h0 : isSurrounded g.board g.width g.height player x y = 0)
    (h5 : (playerAt g (idx32 player)).busy_areas = g.areas) :
    game_move g player x y = (false, g) := by
  simp [game_move, h0, h5]

theorem game_move_true_elim (g : game_t) (player x y : Nat)
    (hacc : (game_move g player x y).1 = true) :
    ¬ g.players_num < player ∧ valid_coordinate g.width g.height x y = true ∧
      (gameCell g x y).player = 0 ∧
      (isSurrounded g.board g.width g.height player x y = 0 →
        (playerAt g (idx32 player)).busy_areas ≠ g.areas) := by
  refine ⟨?_, ?_, ?_, ?_⟩
  · intro a1
    rw [game_move_fail_player g player x y a1] at hacc
    exact absurd hacc (by simp)
  · cases hv : valid_coordinate g.width g.height x y
    · rw [game_move_fail_coord g player x y hv] at hacc
      exact absurd hacc (by simp)
    · rfl
  · by_cases h3 : (gameCell g x y).player = 0
    · exact h3
    · rw [game_move_fail_occupied g player x y h3] at hacc
      exact absurd hacc (by simp)
  · intro h0 h5
    rw [game_move_fail_quota g player x y h0 h5] at hacc
    exact absurd hacc (by simp)

/-!
## Claim C3 (amended), C7 and C9
-/

theorem chainB_eval (f1 f2 f3 f4 f5 f6 : Bool) (around : Nat)
    (h1 : 1 ≤ around) (h3 : around ≤ 3) :
    chainB f1 f2 f3 f4 f5 f6 around =
      if countB f1 + countB f2 + countB f3 + countB f4 + countB f5 +
          countB f6 = 0 then 1
      else min (countB f1 + countB f2 + countB f3 + countB f4 + countB f5 +
          countB f6) around := by
  interval_cases around <;>
    cases f1 <;> cases f2 <;> cases f3 <;> cases f4 <;> cases f5 <;>
    cases f6 <;> decide

theorem different_areas_as_chainB (nb : List Nat) (around : Nat)
    (h : around ≠ 4) :
    different_areas nb around =
      chainB (decide (nb.getD 0 0 ≠ 0 ∧ nb.getD 1 0 ≠ 0 ∧ nb.getD 0 0 ≠ nb.getD 1 0))
        (decide (nb.getD 0 0 ≠ 0 ∧ nb.getD 2 0 ≠ 0 ∧ nb.getD 0 0 ≠ nb.getD 2 0))
        (decide (nb.getD 0 0 ≠ 0 ∧ nb.getD 3 0 ≠ 0 ∧ nb.getD 0 0 ≠ nb.getD 3 0))
        (decide (nb.getD 1 0 ≠ 0 ∧ nb.getD 2 0 ≠ 0 ∧ nb.getD 1 0 ≠ nb.getD 2 0))
        (decide (nb.getD 1 0 ≠ 0 ∧ nb.getD 3 0 ≠ 0 ∧ nb.getD 1 0 ≠ nb.getD 3 0))
        (decide (nb.getD 2 0 ≠ 0 ∧ nb.getD 3 0 ≠ 0 ∧ nb.getD 2 0 ≠ nb.getD 3 0))
        around := by
  simp only [different_areas, chainB, pairStep, pairStepB, decide_eq_true_eq,
    if_neg h]

theorem different_areas_spec_as_countB (nb : List Nat) (around : Nat) :
    different_areas_spec nb around =
      if countB (decide (nb.getD 0 0 ≠ 0 ∧ nb.getD 1 0 ≠ 0 ∧ nb.getD 0 0 ≠ nb.getD 1 0)) +
          countB (decide (nb.getD 0 0 ≠ 0 ∧ nb.getD 2 0 ≠ 0 ∧ nb.getD 0 0 ≠ nb.getD 2 0)) +
          countB (decide (nb.getD 0 0 ≠ 0 ∧ nb.getD 3 0 ≠ 0 ∧ nb.getD 0 0 ≠ nb.getD 3 0)) +
          countB (decide (nb.getD 1 0 ≠ 0 ∧ nb.getD 2 0 ≠ 0 ∧ nb.getD 1 0 ≠ nb.getD 2 0)) +
          countB (decide (nb.getD 1 0 ≠ 0 ∧ nb.getD 3 0 ≠ 0 ∧ nb.getD 1 0 ≠ nb.getD 3 0)) +
          countB (decide (nb.getD 2 0 ≠ 0 ∧ nb.getD 3 0 ≠ 0 ∧ nb.getD 2 0 ≠ nb.getD 3 0)) = 0
      then 1
      else min (countB (decide (nb.getD 0 0 ≠ 0 ∧ nb.getD 1 0 ≠ 0 ∧ nb.getD 0 0 ≠ nb.getD 1 0)) +
          countB (decide (nb.getD 0 0 ≠ 0 ∧ nb.getD 2 0 ≠ 0 ∧ nb.getD 0 0 ≠ nb.getD 2 0)) +
          countB (decide (nb.getD 0 0 ≠ 0 ∧ nb.getD 3 0 ≠ 0 ∧ nb.getD 0 0 ≠ nb.getD 3 0)) +
          countB (decide (nb.getD 1 0 ≠ 0 ∧ nb.getD 2 0 ≠ 0 ∧ nb.getD 1 0 ≠ nb.getD 2 0)) +
          countB (decide (nb.getD 1 0 ≠ 0 ∧ nb.getD 3 0 ≠ 0 ∧ nb.getD 1 0 ≠ nb.getD 3 0)) +
          countB (decide (nb.getD 2 0 ≠ 0 ∧ nb.getD 3 0 ≠ 0 ∧ nb.getD 2 0 ≠ nb.getD 3 0))) around := by
  simp only [different_areas_spec, pairFlag, countB, decide_eq_true_eq]

/-- C3 (amended): for `around` in 1..3 the classifier equals the procedure the
claim states (count the differing nonzero pairs in the fixed order, each pair
once, cap at `around`, force 1 when no nonzero pair differs); when
`around = 4` the classifier returns 4 immediately, without any comparison. -/
theorem different_areas_characterization (nb : List Nat) (around : Nat)
    (h1 : 1 ≤ around) (h4 : around ≤ 4) :
    different_areas nb around =
      if around = 4 then 4 else different_areas_spec nb around := by
  by_cases h : around = 4
  · rw [if_pos h, h]
    rfl
  · rw [if_neg h, different_areas_as_chainB nb around h,
      different_areas_spec_as_countB nb around]
    exact chainB_eval _ _ _ _ _ _ around h1 (by omega)

/-- Witness for C3: the classifier applied at a concrete slot array. -/
theorem different_areas_characterization_witness :
    different_areas [1, 2, 0, 0] 2 =
      if (2 : Nat) = 4 then 4 else different_areas_spec [1, 2, 0, 0] 2 :=
  different_areas_characterization [1, 2, 0, 0] 2 (by decide) (by decide)

theorem foldl_add64_eq (l : List Nat) (a : Nat) :
    l.foldl (fun acc v => add64 acc v) (a % U64) =
      (l.foldl (fun acc v => acc + v) a) % U64 := by
  induction l generalizing a with
  | nil => rfl
  | cons hd tl ih =>
    simp only [List.foldl_cons, add64]
    rw [Nat.mod_add_mod]
    exact ih (a + hd)

theorem sum_completed_eq (g : game_t) :
    sum_completed g = sum_completed_nat g % U64 := by
  unfold sum_completed sum_completed_nat
  have h2 : ∀ (l : List Nat) (a : Nat),
      l.foldl (fun acc v => add64 acc v) (a % U64) =
        (l.foldl (fun acc v => acc + v) a) % U64 := fun l a => foldl_add64_eq l a
  have e1 : (List.range g.players_num).foldl
      (fun acc p => add64 acc (playerAt g p).completed_moves) 0 =
      ((List.range g.players_num).map
        (fun p => (playerAt g p).completed_moves)).foldl
        (fun acc v => add64 acc v) 0 := by
    rw [List.foldl_map]
  have e2 : (List.range g.players_num).foldl
      (fun acc p => acc + (playerAt g p).completed_moves) 0 =
      ((List.range g.players_num).map
        (fun p => (playerAt g p).completed_moves)).foldl
        (fun acc v => acc + v) 0 := by
    rw [List.foldl_map]
  rw [e1, e2]
  exact h2 _ 0

/-- C7 counterexample: on the reachable 5×2 state of the C4 scenario, the
phantom move (4,1) is replayed three more times (it claims no cell, so it
stays accepted); after 11 accepted moves `Σ placed_count = 11` on a 10-cell
board, `busy_areas = 0 ≠ areas`, and `game_free_fields` returns the wrapped
`uint64` difference `2^64 - 1` — not "width*height minus the sum" (under the
natural-number reading `10 - 11 = 0`). -/
theorem free_fields_wrapped_difference_cex :
    ((game_new 5 2 1 2).map fun g0 =>
      let r1 := game_move g0 1 0 0
      let r2 := game_move r1.2 1 2 0
      let r3 := game_move r2.2 1 1 0
      let r4 := game_move r3.2 1 2 1
      let r5 := game_move r4.2 1 1 1
      let r6 := game_move r5.2 1 0 1
      let r7 := game_move r6.2 1 4 0
      let r8 := game_move r7.2 1 4 1
      let r9 := game_move r8.2 1 4 1
      let r10 := game_move r9.2 1 4 1
      let r11 := game_move r10.2 1 4 1
      let g := r11.2
      (r1.1 && r2.1 && r3.1 && r4.1 && r5.1 && r6.1 && r7.1 && r8.1 &&
          r9.1 && r10.1 && r11.1,
        sum_completed_nat g, g.width * g.height,
        (playerAt g 0).busy_areas == g.areas,
        game_free_fields g 1,
        game_free_fields g 1 == g.width * g.height - sum_completed_nat g)) =
    some (true, 11, 10, false, 18446744073709551615, false) := by
  decide

theorem sub64_mod_left (a b : Nat) : sub64 (a % U64) b = sub64 a b := by
  simp only [sub64, U64] at *
  omega

theorem sub64_mod_right (a b : Nat) : sub64 a (b % U64) = sub64 a b := by
  simp only [sub64, U64] at *
  omega

/-- C7 (amended): `game_free_fields` returns the player's maintained boundary
when the player's `busy_areas` equals the quota, and otherwise the `uint64`
wrapping difference `sub64 (width*height) (Σ completed_moves)` — which equals
the plain difference `width*height - Σ` whenever `Σ ≤ width*height`; as a
pure function of the state it changes nothing. -/
theorem game_free_fields_spec (g : game_t) (p : Nat)
    (hp1 : 1 ≤ p) (hp2 : p ≤ g.players_num) :
    game_free_fields g p =
      if (playerAt g (p - 1)).busy_areas = g.areas then
        (playerAt g (p - 1)).boundary
      else sub64 (g.width * g.height) (sum_completed_nat g) := by
  simp only [game_free_fields]
  rw [if_neg (by omega), idx32_pos p hp1]
  by_cases hb : (playerAt g (p - 1)).busy_areas = g.areas
  · rw [if_pos hb, if_pos hb]
  · rw [if_neg hb, if_neg hb, sum_completed_eq, sub64_mod_left,
      sub64_mod_right, Nat.mul_comm g.height g.width]

/-- Witness for C7 at a concrete fresh state. -/
theorem game_free_fields_spec_witness :
    game_free_fields demoFresh 1 =
      if (playerAt demoFresh 0).busy_areas = demoFresh.areas then
        (playerAt demoFresh 0).boundary
      else sub64 (demoFresh.width * demoFresh.height)
        (sum_completed_nat demoFresh) :=
  game_free_fields_spec demoFresh 1 (by decide) (by decide)

theorem getD_replicate {α : Type} (n : Nat) (a d : α) (i : Nat) :
    (List.replicate n a).getD i d = if i < n then a else d := by
  induction n generalizing i with
  | zero => simp [List.getD]
  | succ m ih =>
    cases i with
    | zero => simp [List.replicate]
    | succ k => simpa [List.replicate] using ih k

theorem foldl_add_eq_zero (l : List Nat) (f : Nat → Nat)
    (h : ∀ v ∈ l, f v = 0) :
    l.foldl (fun acc v => acc + f v) 0 = 0 := by
  induction l with
  | nil => rfl
  | cons hd tl ih =>
    simp only [List.foldl_cons, h hd (by simp), Nat.add_zero]
    exact ih (fun v hv => h v (by simp [hv]))

/-- C9: immediately after a successful `game_new width height players areas`,
every cell is empty (owner 0), and every valid player has
`game_busy_fields = 0` and `game_free_fields = width*height`. -/
theorem game_new_fresh (w h pl ar : Nat) (g : game_t)
    (hw : w < U32) (hh : h < U32)
    (hnew : game_new w h pl ar = some g) :
    (∀ x y, (gameCell g x y).player = 0) ∧
      ∀ p, 1 ≤ p → p ≤ pl → game_busy_fields g p = 0 ∧
        game_free_fields g p = w * h := by
  have hwh : h * w < U64 := by
    have := Nat.mul_lt_mul'' hh hw
    simpa [U32, U64] using this
  unfold game_new at hnew
  split_ifs at hnew with hz hp35
  · have hg := Option.some.inj hnew
    subst hg
    constructor
    · intro x y
      simp only [gameCell, cellAt, getD_replicate]
      split_ifs <;>
        first
          | rfl
          | (rw [getD_replicate]
             split_ifs <;> rfl)
    · intro p hp1 hp2
      have hbusy : game_busy_fields
          { board := List.replicate w (List.replicate h emptyCell),
            players := List.replicate pl zeroPlayer,
            width := w, height := h, areas := ar, players_num := pl } p = 0 := by
        simp only [game_busy_fields]
        rw [if_neg (by omega), idx32_pos p hp1]
        simp only [playerAt, getD_replicate]
        split_ifs <;> rfl
      refine ⟨hbusy, ?_⟩
      simp only [game_free_fields]
      rw [if_neg (by omega), idx32_pos p hp1]
      have hzero : (playerAt
          { board := List.replicate w (List.replicate h emptyCell),
            players := List.replicate pl zeroPlayer,
            width := w, height := h, areas := ar, players_num := pl }
          (p - 1) : player_t) = zeroPlayer := by
        simp only [playerAt, getD_replicate]
        rw [if_pos (by omega)]
      rw [hzero]
      rw [if_neg (by simp only [zeroPlayer]; omega)]
      have hsz : sum_completed_nat
          { board := List.replicate w (List.replicate h emptyCell),
            players := List.replicate pl zeroPlayer,
            width := w, height := h, areas := ar, players_num := pl } = 0 := by
        unfold sum_completed_nat
        apply foldl_add_eq_zero
        intro v hv
        simp only [playerAt, getD_replicate]
        split_ifs <;> rfl
      rw [sum_completed_eq, hsz]
      show sub64 ((h * w) % U64) (0 % U64) = w * h
      rw [Nat.zero_mod, sub64_zero _ (Nat.mod_lt _ (by simp [U64])),
        Nat.mod_eq_of_lt hwh, Nat.mul_comm]

/-- Witness for C9 at `game_new 2 2 1 1`. -/
theorem game_new_fresh_witness :
    (gameCell demoFresh 0 1).player = 0 ∧ game_busy_fields demoFresh 1 = 0 ∧
      game_free_fields demoFresh 1 = 2 * 2 :=
  have hthm := game_new_fresh 2 2 1 1 demoFresh (by decide) (by decide)
    (by decide)
  ⟨hthm.1 0 1, (hthm.2 1 (by decide) (by decide)).1,
    (hthm.2 1 (by decide) (by decide)).2⟩

/-!
## Claims C8 (amended) and C6 (amended)
-/

/-- C8 (amended): in any state where player `p` is at quota, a move by `p` to
an empty in-bounds cell succeeds exactly when the cell has a same-owner
orthogonal neighbour (`isSurrounded` counts the cells owned by `p` next to
`(x,y)`); in particular an isolated placement fails, and adjacency to cells
owned only by other players does not lift the quota restriction. -/
theorem quota_move_iff_own_neighbour (g : game_t) (p x y : Nat)
    (hp1 : 1 ≤ p) (hp2 : p ≤ g.players_num)
    (hx : x < g.width) (hy : y < g.height)
    (hempty : (gameCell g x y).player = 0)
    (hquota : (playerAt g (p - 1)).busy_areas = g.areas) :
    ((game_move g p x y).1 = true ↔
      isSurrounded g.board g.width g.height p x y ≠ 0) := by
  constructor
  · intro hacc h0
    have he := game_move_true_elim g p x y hacc
    rw [idx32_pos p hp1] at he
    exact he.2.2.2 h0 hquota
  · intro h0
    by_cases hk : different_areas (find_neighbours g p x y)
        (isSurrounded g.board g.width g.height p x y) = 1
    · rw [game_move_extend_eq g p x y (by omega)
        ((valid_coordinate_iff _ _ _ _).2 ⟨hx, hy⟩) hempty h0 hk]
    · rw [game_move_merge_eq g p x y (by omega)
        ((valid_coordinate_iff _ _ _ _).2 ⟨hx, hy⟩) hempty h0 hk]

/-- Witness for C8 on a concrete at-quota state. -/
theorem quota_move_iff_own_neighbour_witness :
    ((game_move demoQuota 1 1 0).1 = true ↔
      isSurrounded demoQuota.board demoQuota.width demoQuota.height 1 1 0 ≠ 0) :=
  quota_move_iff_own_neighbour demoQuota 1 1 0 (by decide) (by decide)
    (by decide) (by decide) (by decide) (by decide)

@[simp] theorem lower_busy_board (g : game_t) (player around : Nat) :
    (lower_busy g player around).board = g.board := rfl

@[simp] theorem lower_busy_width (g : game_t) (player around : Nat) :
    (lower_busy g player around).width = g.width := rfl

@[simp] theorem lower_busy_height (g : game_t) (player around : Nat) :
    (lower_busy g player around).height = g.height := rfl

@[simp] theorem lower_busy_players_length (g : game_t) (player around : Nat) :
    (lower_busy g player around).players.length = g.players.length := by
  simp [lower_busy]

theorem playerAt_lower_busy_boundary (g : game_t) (player around i : Nat) :
    (playerAt (lower_busy g player around) i).boundary =
      (playerAt g i).boundary := by
  unfold lower_busy
  by_cases hi : idx32 player = i
  · subst hi
    by_cases hlen : idx32 player < g.players.length
    · rw [playerAt_modP_self _ _ _ hlen]
    · unfold playerAt modP
      rw [getD_set_same, if_neg hlen, getD_oor _ _ _ (by omega)]
  · rw [playerAt_modP_ne _ _ _ _ hi]

@[simp] theorem diagonal_neighbours_update_info (h : game_t) (p a b pl x y : Nat) :
    diagonal_neighbours (update_info h p a b) pl x y =
      diagonal_neighbours h pl x y :=
  diagonal_neighbours_congr _ _ _ _ _ (by simp) (by simp) (by simp)

theorem move_boundary_own (g : game_t) (p x y : Nat)
    (hp1 : 1 ≤ p) (hp2 : p ≤ g.players_num)
    (hlen : p - 1 < g.players.length)
    (hb : (playerAt g (p - 1)).boundary < U64)
    (hacc : (game_move g p x y).1 = true) :
    (playerAt (game_move g p x y).2 (p - 1)).boundary =
      sub64 (sub64 (add64
          (sub64 (playerAt g (p - 1)).boundary
            (if isSurrounded g.board g.width g.height p x y = 0 then 0
             else if different_areas (find_neighbours g p x y)
                  (isSurrounded g.board g.width g.height p x y) = 1 ∧
                set_id (find_neighbours g p x y) = 0 then 0
             else 1))
          (isSurrounded (game_move g p x y).2.board g.width g.height 0 x y))
        (common_free_fields (game_move g p x y).2.board g.width g.height p x y))
        (diagonal_neighbours (game_move g p x y).2 p x y) := by
  obtain ⟨a1, a2, a3, a4⟩ := game_move_true_elim g p x y hacc
  by_cases h0 : isSurrounded g.board g.width g.height p x y = 0
  · rw [game_move_island_eq g p x y a1 a2 a3 h0 (a4 h0), if_pos h0,
      sub64_zero _ hb]
    rw [playerAt_update_info_self _ p x y hp1 (by simpa using hlen)]
    simp only [playerAt_new_island_self g p x y hp1 hlen, new_island_width,
      new_island_height, update_info_board, diagonal_neighbours_update_info]
  · rw [if_neg h0]
    by_cases hk : different_areas (find_neighbours g p x y)
        (isSurrounded g.board g.width g.height p x y) = 1
    · rw [game_move_extend_eq g p x y a1 a2 a3 h0 hk]
      set ga := (if 1 < isSurrounded g.board g.width g.height p x y then
        lower_busy g p (isSurrounded g.board g.width g.height p x y) else g)
        with hgadef
      have hgaB : (playerAt ga (p - 1)).boundary =
          (playerAt g (p - 1)).boundary := by
        rw [hgadef]
        split_ifs
        · exact playerAt_lower_busy_boundary g p _ (p - 1)
        · rfl
      have hgaL : ga.players.length = g.players.length := by
        rw [hgadef]
        split_ifs <;> simp
      have hgaW : ga.width = g.width := by
        rw [hgadef]
        split_ifs <;> rfl
      have hgaH : ga.height = g.height := by
        rw [hgadef]
        split_ifs <;> rfl
      by_cases hz : set_id (find_neighbours g p x y) = 0
      · rw [if_pos ⟨hk, hz⟩, sub64_zero _ hb, adjust_noop ga _ p x y hz]
        rw [playerAt_update_info_self ga p x y hp1 (by rw [hgaL]; exact hlen)]
        simp only [hgaB, hgaW, hgaH, update_info_board,
          diagonal_neighbours_update_info]
      · rw [if_neg (fun hc => hz hc.2)]
        rw [playerAt_update_info_self _ p x y hp1 (by
          rw [adjust_players_length, hgaL]
          exact hlen)]
        rw [playerAt_adjust_self ga _ p x y hp1 (by rw [hgaL]; exact hlen) hz]
        simp only [hgaB, adjust_width, adjust_height, hgaW, hgaH,
          update_info_board, diagonal_neighbours_update_info]
    · rw [game_move_merge_eq g p x y a1 a2 a3 h0 hk,
        if_neg (fun hc => hk hc.1)]
      rw [playerAt_update_info_self _ p x y hp1 (by simpa using hlen)]
      rw [playerAt_merge_self g _ _ p x y hp1 hlen]
      simp only [merge_width, merge_height, update_info_board,
        diagonal_neighbours_update_info]

/-!
## Lemma kit: board frame of the move branches (for C10)
-/

theorem gameCell_modP (h : game_t) (i : Nat) (f : player_t → player_t)
    (a b : Nat) : gameCell (modP h i f) a b = gameCell h a b := rfl

theorem gameCell_setTag_modP (h : game_t) (i : Nat) (f : player_t → player_t)
    (x y v a b : Nat) :
    gameCell (setTag (modP h i f) x y v) a b = gameCell (setTag h x y v) a b :=
  rfl

theorem gameCell_lower_busy (g : game_t) (player around a b : Nat) :
    gameCell (lower_busy g player around) a b = gameCell g a b := rfl

theorem gameCell_update_info (h : game_t) (p a b u v : Nat) :
    gameCell (update_info h p a b) u v = gameCell h u v := by
  unfold gameCell
  rw [update_info_board]

@[simp] theorem setCell_length (board : List (List pair_t)) (x y : Nat)
    (c : pair_t) : (setCell board x y c).length = board.length := by
  simp [setCell]

theorem setCell_col_length (board : List (List pair_t)) (x y : Nat)
    (c : pair_t) (a : Nat) :
    ((setCell board x y c).getD a []).length = (board.getD a []).length := by
  by_cases hxa : x = a
  · subst hxa
    unfold setCell
    rw [getD_set_same]
    by_cases hx : x < board.length
    · rw [if_pos hx]
      simp
    · rw [if_neg hx, getD_oor board x [] (by omega)]
  · unfold setCell
    rw [getD_set_ne _ _ _ _ _ hxa]

theorem claim_cell_player_ne (g : game_t) (player x y v a b : Nat)
    (h : ¬ (a = x ∧ b = y)) :
    gameCell (setTag (setOwner g x y player) x y v) a b = gameCell g a b := by
  rw [gameCell_setTag_ne _ _ _ _ _ _ (fun hh => h ⟨hh.1.symm, hh.2.symm⟩),
    gameCell_setOwner_player_ne g x y player a b
      (fun hh => h ⟨hh.1.symm, hh.2.symm⟩)]

theorem claim_cell_tag_changed (g : game_t) (player x y v a b : Nat)
    (hne : (gameCell (setTag (setOwner g x y player) x y v) a b).parent_id ≠
      (gameCell g a b).parent_id) :
    (gameCell (setTag (setOwner g x y player) x y v) a b).player = player := by
  by_cases hab : a = x ∧ b = y
  · obtain ⟨ha, hb2⟩ := hab
    subst ha
    subst hb2
    rw [gameCell_setTag_player]
    by_cases hin : a < g.board.length ∧ b < (g.board.getD a []).length
    · unfold gameCell setOwner
      rw [cellAt_setCell, if_pos ⟨rfl, rfl, hin.1, hin.2⟩]
    · exfalso
      apply hne
      have h1 : (gameCell (setTag (setOwner g a b player) a b v) a b).parent_id =
          (gameCell (setOwner g a b player) a b).parent_id := by
        unfold gameCell setTag
        rw [cellAt_setCell, if_neg]
        rintro ⟨-, -, l1, l2⟩
        apply hin
        constructor
        · simpa [setOwner] using l1
        · have h2 := l2
          rw [show (setOwner g a b player).board =
                setCell g.board a b { cellAt g.board a b with player := player }
              from rfl, setCell_col_length] at h2
          exact h2
      rw [h1, gameCell_setOwner_tag]
  · rw [claim_cell_player_ne g player x y v a b hab] at hne
    exact absurd rfl hne

theorem isSurrounded_off (b1 b2 : List (List pair_t)) (w h pl x y : Nat)
    (hoff : ∀ a b, ¬ (a = x ∧ b = y) →
      (cellAt b1 a b).player = (cellAt b2 a b).player) :
    isSurrounded b1 w h pl x y = isSurrounded b2 w h pl x y := by
  unfold isSurrounded
  have e1 : (0 < x ∧ valid_coordinate w h (x - 1) y = true ∧
      (cellAt b1 (x - 1) y).player = pl) ↔
      (0 < x ∧ valid_coordinate w h (x - 1) y = true ∧
      (cellAt b2 (x - 1) y).player = pl) := by
    by_cases hx0 : 0 < x
    · rw [hoff (x - 1) y (by rintro ⟨e, -⟩; omega)]
    · simp [hx0]
  have e2 : (x + 1 < w ∧ valid_coordinate w h (x + 1) y = true ∧
      (cellAt b1 (x + 1) y).player = pl) ↔
      (x + 1 < w ∧ valid_coordinate w h (x + 1) y = true ∧
      (cellAt b2 (x + 1) y).player = pl) := by
    rw [hoff (x + 1) y (by rintro ⟨e, -⟩; omega)]
  have e3 : (0 < y ∧ valid_coordinate w h x (y - 1) = true ∧
      (cellAt b1 x (y - 1)).player = pl) ↔
      (0 < y ∧ valid_coordinate w h x (y - 1) = true ∧
      (cellAt b2 x (y - 1)).player = pl) := by
    by_cases hy0 : 0 < y
    · rw [hoff x (y - 1) (by rintro ⟨-, e⟩; omega)]
    · simp [hy0]
  have e4 : (y + 1 < h ∧ valid_coordinate w h x (y + 1) = true ∧
      (cellAt b1 x (y + 1)).player = pl) ↔
      (y + 1 < h ∧ valid_coordinate w h x (y + 1) = true ∧
      (cellAt b2 x (y + 1)).player = pl) := by
    rw [hoff x (y + 1) (by rintro ⟨-, e⟩; omega)]
  rw [if_congr e1 rfl rfl, if_congr e2 rfl rfl, if_congr e3 rfl rfl,
    if_congr e4 rfl rfl]

theorem new_island_cell_player_ne (g : game_t) (player x y a b : Nat)
    (h : ¬ (a = x ∧ b = y)) :
    (gameCell (new_island g player x y) a b).player =
      (gameCell g a b).player := by
  simp only [new_island, gameCell_setTag_modP]
  rw [claim_cell_player_ne g player x y _ a b h]

theorem new_island_tag_changed (g : game_t) (player x y a b : Nat)
    (hne : (gameCell (new_island g player x y) a b).parent_id ≠
      (gameCell g a b).parent_id) :
    (gameCell (new_island g player x y) a b).player = player := by
  simp only [new_island, gameCell_setTag_modP] at hne ⊢
  exact claim_cell_tag_changed g player x y _ a b hne

theorem adjust_cell_player_ne (g : game_t) (nb : List Nat) (player x y a b : Nat)
    (h : ¬ (a = x ∧ b = y)) :
    (gameCell (adjust_to_existing g nb player x y) a b).player =
      (gameCell g a b).player := by
  simp only [adjust_to_existing]
  split_ifs <;>
    first
      | rfl
      | (rw [gameCell_modP, claim_cell_player_ne g player x y _ a b h])

theorem adjust_tag_changed (g : game_t) (nb : List Nat) (player x y a b : Nat)
    (hne : (gameCell (adjust_to_existing g nb player x y) a b).parent_id ≠
      (gameCell g a b).parent_id) :
    (gameCell (adjust_to_existing g nb player x y) a b).player = player := by
  simp only [adjust_to_existing] at hne ⊢
  split_ifs at hne ⊢ <;>
    first
      | exact absurd rfl hne
      | (rw [gameCell_modP] at hne ⊢
         exact claim_cell_tag_changed g player x y _ a b hne)

theorem bfs4_tag_changed (W : game_t)
    (id player a b x1 y1 x2 y2 x3 y3 x4 y4 f1 f2 f3 f4 : Nat)
    (hne : (gameCell (BFS f4 (BFS f3 (BFS f2 (BFS f1 W id player x1 y1)
        id player x2 y2) id player x3 y3) id player x4 y4) a b).parent_id ≠
      (gameCell W a b).parent_id) :
    (gameCell W a b).player = player := by
  set G1 := BFS f1 W id player x1 y1 with hG1
  set G2 := BFS f2 G1 id player x2 y2 with hG2
  set G3 := BFS f3 G2 id player x3 y3 with hG3
  have p1 : (gameCell G1 a b).player = (gameCell W a b).player := by
    rw [hG1, BFS_cell_player]
  have p2 : (gameCell G2 a b).player = (gameCell W a b).player := by
    rw [hG2, BFS_cell_player]
    exact p1
  have p3 : (gameCell G3 a b).player = (gameCell W a b).player := by
    rw [hG3, BFS_cell_player]
    exact p2
  by_cases e1 : (gameCell G1 a b).parent_id = (gameCell W a b).parent_id
  · by_cases e2 : (gameCell G2 a b).parent_id = (gameCell G1 a b).parent_id
    · by_cases e3 : (gameCell G3 a b).parent_id = (gameCell G2 a b).parent_id
      · rw [← e1, ← e2, ← e3] at hne
        have h5 := BFS_tag_changed_owner f4 G3 id player x4 y4 a b hne
        rw [p3] at h5
        exact h5
      · have h5 := BFS_tag_changed_owner f3 G2 id player x3 y3 a b e3
        rw [p2] at h5
        exact h5
    · have h5 := BFS_tag_changed_owner f2 G1 id player x2 y2 a b e2
      rw [p1] at h5
      exact h5
  · exact BFS_tag_changed_owner f1 W id player x1 y1 a b e1

theorem merge_cell_player_ne (g : game_t) (nb : List Nat)
    (around player x y a b : Nat) (h : ¬ (a = x ∧ b = y)) :
    (gameCell (merge_areas g nb around player x y) a b).player =
      (gameCell g a b).player := by
  simp only [merge_areas]
  rw [BFS_cell_player, BFS_cell_player, BFS_cell_player, BFS_cell_player,
    gameCell_modP, gameCell_modP]
  rw [claim_cell_player_ne g player x y _ a b h]

theorem merge_tag_changed (g : game_t) (nb : List Nat)
    (around player x y a b : Nat)
    (hne : (gameCell (merge_areas g nb around player x y) a b).parent_id ≠
      (gameCell g a b).parent_id) :
    (gameCell (merge_areas g nb around player x y) a b).player = player := by
  simp only [merge_areas] at hne ⊢
  rw [BFS_cell_player, BFS_cell_player, BFS_cell_player, BFS_cell_player,
    gameCell_modP, gameCell_modP]
  by_cases h2 : (gameCell (setTag (setOwner g x y player) x y (set_id nb))
      a b).parent_id = (gameCell g a b).parent_id
  · have h3 := bfs4_tag_changed _ _ player a b _ _ _ _ _ _ _ _ _ _ _ _
      (fun e => hne (e.trans h2))
    exact h3
  · exact claim_cell_tag_changed g player x y _ a b h2

theorem playerAt_lower_busy_other (g : game_t) (player around i : Nat)
    (hi : i ≠ idx32 player) :
    playerAt (lower_busy g player around) i = playerAt g i := by
  unfold lower_busy
  rw [playerAt_modP_ne _ _ _ _ (fun e => hi e.symm)]

theorem frame_from_branch (g S : game_t) (p x y q : Nat)
    (hp1 : 1 ≤ p) (hq1 : 1 ≤ q) (hqp : q ≠ p)
    (hqlen : q - 1 < g.players.length)
    (hqb : (playerAt g (q - 1)).boundary < U64)
    (hx : x < g.width) (hy : y < g.height)
    (hSw : S.width = g.width) (hSh : S.height = g.height)
    (hSl : S.players.length = g.players.length)
    (hSplayer : ∀ a b, ¬ (a = x ∧ b = y) →
      (gameCell S a b).player = (gameCell g a b).player)
    (hStag : ∀ a b, (gameCell S a b).parent_id ≠ (gameCell g a b).parent_id →
      (gameCell S a b).player = p)
    (hSq : playerAt S (q - 1) = playerAt g (q - 1)) :
    (∀ a b, ¬ (a = x ∧ b = y) →
      (gameCell (update_info S p x y) a b).player = (gameCell g a b).player) ∧
    (∀ a b, (gameCell (update_info S p x y) a b).parent_id ≠
        (gameCell g a b).parent_id →
      (gameCell (update_info S p x y) a b).player = p) ∧
    (playerAt (update_info S p x y) (q - 1)).busy_areas =
      (playerAt g (q - 1)).busy_areas ∧
    (playerAt (update_info S p x y) (q - 1)).completed_moves =
      (playerAt g (q - 1)).completed_moves ∧
    (playerAt (update_info S p x y) (q - 1)).boundary =
      sub64 (playerAt g (q - 1)).boundary
        (isSurrounded g.board g.width g.height q x y) := by
  have hrec := playerAt_update_info_other S p x y q hp1 hq1 hqp
    (by rw [hSl]; exact hqlen) (by rw [hSw]; exact hx) (by rw [hSh]; exact hy)
    (by rw [hSq]; exact hqb)
  rw [hSq] at hrec
  have hIS : isSurrounded S.board S.width S.height q x y =
      isSurrounded g.board g.width g.height q x y := by
    rw [hSw, hSh]
    exact isSurrounded_off S.board g.board _ _ q x y hSplayer
  rw [hIS] at hrec
  refine ⟨?_, ?_, ?_, ?_, ?_⟩
  · intro a b hab
    rw [gameCell_update_info]
    exact hSplayer a b hab
  · intro a b hne
    rw [gameCell_update_info] at hne ⊢
    exact hStag a b hne
  · rw [hrec]
  · rw [hrec]
  · rw [hrec]

/-- C10: in every accepted move by a valid player `p`, the owner of every
cell other than `(x,y)` is unchanged; any cell whose area tag changed is
owned by `p` afterwards; and for every other valid player `q` the
`busy_areas` and `completed_moves` counters are unchanged while `boundary`
decreases by exactly the number of `q`-owned cells orthogonally adjacent to
`(x,y)` (as `uint64` arithmetic, `sub64`). -/
theorem game_move_frame (g : game_t) (p x y q : Nat)
    (hp1 : 1 ≤ p) (hp2 : p ≤ g.players_num)
    (hq1 : 1 ≤ q) (hq2 : q ≤ g.players_num) (hqp : q ≠ p)
    (hqlen : q - 1 < g.players.length)
    (hqb : (playerAt g (q - 1)).boundary < U64)
    (hacc : (game_move g p x y).1 = true) :
    (∀ a b, ¬ (a = x ∧ b = y) →
      (gameCell (game_move g p x y).2 a b).player = (gameCell g a b).player) ∧
    (∀ a b, (gameCell (game_move g p x y).2 a b).parent_id ≠
        (gameCell g a b).parent_id →
      (gameCell (game_move g p x y).2 a b).player = p) ∧
    (playerAt (game_move g p x y).2 (q - 1)).busy_areas =
      (playerAt g (q - 1)).busy_areas ∧
    (playerAt (game_move g p x y).2 (q - 1)).completed_moves =
      (playerAt g (q - 1)).completed_moves ∧
    (playerAt (game_move g p x y).2 (q - 1)).boundary =
      sub64 (playerAt g (q - 1)).boundary
        (isSurrounded g.board g.width g.height q x y) := by
  obtain ⟨a1, a2, a3, a4⟩ := game_move_true_elim g p x y hacc
  have hxy := (valid_coordinate_iff _ _ _ _).1 a2
  have hqne : q - 1 ≠ idx32 p := by
    rw [idx32_pos p hp1]
    omega
  by_cases h0 : isSurrounded g.board g.width g.height p x y = 0
  · rw [game_move_island_eq g p x y a1 a2 a3 h0 (a4 h0)]
    exact frame_from_branch g (new_island g p x y) p x y q hp1 hq1 hqp hqlen
      hqb hxy.1 hxy.2 (by simp) (by simp) (by simp)
      (fun a b hab => new_island_cell_player_ne g p x y a b hab)
      (fun a b hne => new_island_tag_changed g p x y a b hne)
      (playerAt_new_island_other g p x y (q - 1) hqne)
  · by_cases hk : different_areas (find_neighbours g p x y)
        (isSurrounded g.board g.width g.height p x y) = 1
    · rw [game_move_extend_eq g p x y a1 a2 a3 h0 hk]
      set ga := (if 1 < isSurrounded g.board g.width g.height p x y then
        lower_busy g p (isSurrounded g.board g.width g.height p x y) else g)
        with hga
      have hgaB : ∀ a b, gameCell ga a b = gameCell g a b := by
        intro a b
        rw [hga]
        split_ifs
        · exact gameCell_lower_busy g p _ a b
        · rfl
      have hgaQ : playerAt ga (q - 1) = playerAt g (q - 1) := by
        rw [hga]
        split_ifs
        · exact playerAt_lower_busy_other g p _ (q - 1) hqne
        · rfl
      have hgaL : ga.players.length = g.players.length := by
        rw [hga]
        split_ifs <;> simp
      have hgaW : ga.width = g.width := by
        rw [hga]
        split_ifs <;> rfl
      have hgaH : ga.height = g.height := by
        rw [hga]
        split_ifs <;> rfl
      refine frame_from_branch g _ p x y q hp1 hq1 hqp hqlen hqb hxy.1 hxy.2
        (by rw [adjust_width, hgaW]) (by rw [adjust_height, hgaH])
        (by rw [adjust_players_length, hgaL]) ?_ ?_ ?_
      · intro a b hab
        rw [adjust_cell_player_ne ga _ p x y a b hab, hgaB a b]
      · intro a b hne
        rw [← hgaB a b] at hne
        exact adjust_tag_changed ga _ p x y a b hne
      · rw [playerAt_adjust_other ga _ p x y (q - 1) hqne, hgaQ]
    · rw [game_move_merge_eq g p x y a1 a2 a3 h0 hk]
      exact frame_from_branch g _ p x y q hp1 hq1 hqp hqlen hqb hxy.1 hxy.2
        (by simp) (by simp) (by simp)
        (fun a b hab => merge_cell_player_ne g _ _ p x y a b hab)
        (fun a b hne => merge_tag_changed g _ _ p x y a b hne)
        (playerAt_merge_other g _ _ p x y (q - 1) hqne)

/-- Witness for C10: the accepted island move of `demoTwo` at (1,0), with
`q = 2` owning the adjacent cell (2,0). -/
theorem game_move_frame_witness :
    (gameCell (game_move demoTwo 1 1 0).2 2 0).player =
      (gameCell demoTwo 2 0).player ∧
    (playerAt (game_move demoTwo 1 1 0).2 1).busy_areas =
      (playerAt demoTwo 1).busy_areas ∧
    (playerAt (game_move demoTwo 1 1 0).2 1).completed_moves =
      (playerAt demoTwo 1).completed_moves ∧
    (playerAt (game_move demoTwo 1 1 0).2 1).boundary =
      sub64 (playerAt demoTwo 1).boundary
        (isSurrounded demoTwo.board demoTwo.width demoTwo.height 2 1 0) :=
  have hthm := game_move_frame demoTwo 1 1 0 2 (by decide) (by decide)
    (by decide) (by decide) (by decide) (by decide) (by decide) (by decide)
  ⟨hthm.1 2 0 (by decide), hthm.2.2.1, hthm.2.2.2.1, hthm.2.2.2.2⟩

theorem move_boundary_strangers (g : game_t) (p x y q : Nat)
    (hp1 : 1 ≤ p) (hq1 : 1 ≤ q) (hqp : q ≠ p)
    (hqlen : q - 1 < g.players.length)
    (hqb : (playerAt g (q - 1)).boundary < U64)
    (hacc : (game_move g p x y).1 = true) :
    (playerAt (game_move g p x y).2 (q - 1)).boundary =
      sub64 (playerAt g (q - 1)).boundary
        (isSurrounded g.board g.width g.height q x y) := by
  obtain ⟨a1, a2, a3, a4⟩ := game_move_true_elim g p x y hacc
  have hxy := (valid_coordinate_iff _ _ _ _).1 a2
  have hqne : q - 1 ≠ idx32 p := by
    rw [idx32_pos p hp1]
    omega
  by_cases h0 : isSurrounded g.board g.width g.height p x y = 0
  · rw [game_move_island_eq g p x y a1 a2 a3 h0 (a4 h0)]
    exact (frame_from_branch g (new_island g p x y) p x y q hp1 hq1 hqp hqlen
      hqb hxy.1 hxy.2 (by simp) (by simp) (by simp)
      (fun a b hab => new_island_cell_player_ne g p x y a b hab)
      (fun a b hne => new_island_tag_changed g p x y a b hne)
      (playerAt_new_island_other g p x y (q - 1) hqne)).2.2.2.2
  · by_cases hk : different_areas (find_neighbours g p x y)
        (isSurrounded g.board g.width g.height p x y) = 1
    · rw [game_move_extend_eq g p x y a1 a2 a3 h0 hk]
      set ga := (if 1 < isSurrounded g.board g.width g.height p x y then
        lower_busy g p (isSurrounded g.board g.width g.height p x y) else g)
        with hga
      have hgaB : ∀ a b, gameCell ga a b = gameCell g a b := by
        intro a b
        rw [hga]
        split_ifs
        · exact gameCell_lower_busy g p _ a b
        · rfl
      have hgaQ : playerAt ga (q - 1) = playerAt g (q - 1) := by
        rw [hga]
        split_ifs
        · exact playerAt_lower_busy_other g p _ (q - 1) hqne
        · rfl
      have hgaL : ga.players.length = g.players.length := by
        rw [hga]
        split_ifs <;> simp
      have hgaW : ga.width = g.width := by
        rw [hga]
        split_ifs <;> rfl
      have hgaH : ga.height = g.height := by
        rw [hga]
        split_ifs <;> rfl
      refine (frame_from_branch g _ p x y q hp1 hq1 hqp hqlen hqb hxy.1 hxy.2
        (by rw [adjust_width, hgaW]) (by rw [adjust_height, hgaH])
        (by rw [adjust_players_length, hgaL]) ?_ ?_ ?_).2.2.2.2
      · intro a b hab
        rw [adjust_cell_player_ne ga _ p x y a b hab, hgaB a b]
      · intro a b hne
        rw [← hgaB a b] at hne
        exact adjust_tag_changed ga _ p x y a b hne
      · rw [playerAt_adjust_other ga _ p x y (q - 1) hqne, hgaQ]
    · rw [game_move_merge_eq g p x y a1 a2 a3 h0 hk]
      exact (frame_from_branch g _ p x y q hp1 hq1 hqp hqlen hqb hxy.1 hxy.2
        (by simp) (by simp) (by simp)
        (fun a b hab => merge_cell_player_ne g _ _ p x y a b hab)
        (fun a b hne => merge_tag_changed g _ _ p x y a b hne)
        (playerAt_merge_other g _ _ p x y (q - 1) hqne)).2.2.2.2

/-- C6 (amended): in every accepted move by player `p` at `(x,y)`, the ledger
update is exactly: `boundary[p]` gains the free orthogonal neighbours of
`(x,y)`, loses the same-player cells two steps away, loses the diagonal leak
count, and additionally loses 1 for the claimed cell itself in the
extend/merge branches — in the merge branch always, and in the extend branch
exactly when some neighbour tag slot is nonzero (in the degenerate
all-zero-tag extend states reachable per C4, no cell is claimed and no extra
decrement occurs); and for every other valid player `q`, `boundary[q]` drops
by exactly the number of `q`-owned cells orthogonally adjacent to `(x,y)`
(`sub64` arithmetic).  No other boundary change occurs. -/
theorem game_move_boundary_update (g : game_t) (p x y : Nat)
    (hp1 : 1 ≤ p) (hp2 : p ≤ g.players_num)
    (hlen : p - 1 < g.players.length)
    (hb : (playerAt g (p - 1)).boundary < U64)
    (hacc : (game_move g p x y).1 = true) :
    (playerAt (game_move g p x y).2 (p - 1)).boundary =
      sub64 (sub64 (add64
          (sub64 (playerAt g (p - 1)).boundary
            (if isSurrounded g.board g.width g.height p x y = 0 then 0
             else if different_areas (find_neighbours g p x y)
                  (isSurrounded g.board g.width g.height p x y) = 1 ∧
                set_id (find_neighbours g p x y) = 0 then 0
             else 1))
          (isSurrounded (game_move g p x y).2.board g.width g.height 0 x y))
        (common_free_fields (game_move g p x y).2.board g.width g.height p x y))
        (diagonal_neighbours (game_move g p x y).2 p x y) ∧
    ∀ q, 1 ≤ q → q ≠ p → q - 1 < g.players.length →
      (playerAt g (q - 1)).boundary < U64 →
      (playerAt (game_move g p x y).2 (q - 1)).boundary =
        sub64 (playerAt g (q - 1)).boundary
          (isSurrounded g.board g.width g.height q x y) :=
  ⟨move_boundary_own g p x y hp1 hp2 hlen hb hacc,
    fun q hq1 hqp hqlen hqb =>
      move_boundary_strangers g p x y q hp1 hq1 hqp hqlen hqb hacc⟩

/-- Witness for C6: the accepted island move of `demoTwo` at (1,0), with
player 2 as the stranger owning the adjacent cell (2,0). -/
theorem game_move_boundary_update_witness :
    ((playerAt (game_move demoTwo 1 1 0).2 0).boundary =
      sub64 (sub64 (add64
          (sub64 (playerAt demoTwo 0).boundary
            (if isSurrounded demoTwo.board demoTwo.width demoTwo.height
                1 1 0 = 0 then 0
             else if different_areas (find_neighbours demoTwo 1 1 0)
                  (isSurrounded demoTwo.board demoTwo.width demoTwo.height
                    1 1 0) = 1 ∧
                set_id (find_neighbours demoTwo 1 1 0) = 0 then 0
             else 1))
          (isSurrounded (game_move demoTwo 1 1 0).2.board demoTwo.width
            demoTwo.height 0 1 0))
        (common_free_fields (game_move demoTwo 1 1 0).2.board demoTwo.width
          demoTwo.height 1 1 0))
        (diagonal_neighbours (game_move demoTwo 1 1 0).2 1 1 0)) ∧
    (playerAt (game_move demoTwo 1 1 0).2 1).boundary =
      sub64 (playerAt demoTwo 1).boundary
        (isSurrounded demoTwo.board demoTwo.width demoTwo.height 2 1 0) :=
  have hthm := game_move_boundary_update demoTwo 1 1 0 (by decide) (by decide)
    (by decide) (by decide) (by decide)
  ⟨hthm.1, hthm.2 2 (by decide) (by decide) (by decide) (by decide)⟩
